import Mathlib

/-! Kasenna MediaBase metademux (`modules/demux/sgimb.c`).

A shallow embedding of the sniffer (`Activate`), the line classifier
(`ParseLine`) and the resolver (`Demux`) of `sgimb.c`, and theorems about them.

Conventions of the embedding:

* a C `char` or `byte_t` is its byte value, a natural number; `NUL` is `0`;
* a `char *` is the list of bytes found from the pointer on; the end of the
  list stands for the terminating NUL, and every libc routine modelled here
  also stops at a NUL byte inside the list, as the C routine does;
* a pointer that may be `NULL` is an `Option`;
* undefined behaviour (a write through `NULL`, a write past a `malloc`ed
  block) is the result `none`.
-/

namespace Sgimb

/-- The terminating byte of a C string. -/
def NUL : Nat := 0

/-- The bytes of a C string literal, without its terminating NUL (the
literals of the code are ASCII, one byte for each character). -/
def lit (s : String) : List Nat := s.toList.map Char.toNat

/-- The C operator `sizeof` on a string literal: its bytes and the NUL. -/
def sizeof (l : List Nat) : Nat := l.length + 1

/-- The libc `tolower` in the C locale: `A`..`Z` go to `a`..`z`. -/
def tolower (c : Nat) : Nat := if 65 ≤ c ∧ c ≤ 90 then c + 32 else c

/-- The byte a `char *` points at: the head of the list, NUL at its end. -/
def deref (s : List Nat) : Nat := s.headD NUL

/-- The libc `strncasecmp`: compare at most `n` bytes, ignoring case, stopping
after a NUL; the result is the difference of the first two bytes that differ,
and `0` when there are none. -/
def strncasecmp : List Nat → List Nat → Nat → Int
  | _, _, 0 => 0
  | s1, s2, n + 1 =>
    if tolower (deref s1) ≠ tolower (deref s2) then
      (tolower (deref s1) : Int) - (tolower (deref s2) : Int)
    else if deref s1 = NUL then 0
    else strncasecmp s1.tail s2.tail n

/-- The libc `strlen`: the number of bytes before the first NUL. -/
def strlen : List Nat → Nat
  | [] => 0
  | c :: s => if c = NUL then 0 else strlen s + 1

/-- The libc `strdup`: a copy of the bytes before the first NUL. -/
def strdup : List Nat → List Nat
  | [] => []
  | c :: s => if c = NUL then [] else c :: strdup s

/-- The libc `strrchr` for a byte `c` other than NUL: the offset of the last
`c` before the first NUL, `none` (the NULL pointer) when there is none. -/
def strrchr : List Nat → Nat → Option Nat
  | [], _ => none
  | a :: s, c =>
    if a = NUL then none
    else match strrchr s c with
      | some i => some (i + 1)
      | none => if a = c then some 0 else none

/-- The libc `isspace` in the C locale. -/
def isspace (c : Nat) : Bool := c = 32 || (9 ≤ c && c ≤ 13)

/-- The value of a byte as a digit, letters standing for 10 to 35. -/
def digit_val (c : Nat) : Option Nat :=
  if 48 ≤ c ∧ c ≤ 57 then some (c - 48)
  else if 97 ≤ c ∧ c ≤ 122 then some (c - 87)
  else if 65 ≤ c ∧ c ≤ 90 then some (c - 55)
  else none

/-- The digit loop of `strtol`: the value of the longest run of digits below
`base` at the head of the string, continuing from `acc`. -/
def strtol_digits (base : Nat) : List Nat → Nat → Nat
  | [], acc => acc
  | c :: s, acc =>
    match digit_val c with
    | some d => if d < base then strtol_digits base s (acc * base + d) else acc
    | none => acc

/-- The magnitude read by `strtol` with base `0`, after blanks and sign: `0x`
or `0X` starts a hexadecimal numeral, another `0` an octal one, anything else
a decimal one; without digits the value is `0`. -/
def strtol_magnitude (s : List Nat) : Nat :=
  if deref s = 48 then
    if deref s.tail = 120 ∨ deref s.tail = 88 then strtol_digits 16 (s.drop 2) 0
    else strtol_digits 8 s 0
  else strtol_digits 10 s 0

/-- The libc call `strtol( nptr, NULL, 0 )`: blanks, an optional sign, a
numeral whose base is read off its prefix; the result is clamped to the range
of `long`, whose largest value `LONG_MAX` is the platform's. -/
def strtol (LONG_MAX : Int) (nptr : List Nat) : Int :=
  let s := nptr.dropWhile isspace
  if deref s = 45 then max (-(strtol_magnitude s.tail : Int)) (-LONG_MAX - 1)
  else if deref s = 43 then min (strtol_magnitude s.tail : Int) LONG_MAX
  else min (strtol_magnitude s : Int) LONG_MAX

/-- The cast `(int)` of a `long`: the value modulo `2^32`, read as a signed
32-bit number. -/
def int_of_long (x : Int) : Int := (x + 2 ^ 31) % 2 ^ 32 - 2 ^ 31

/-- The decimal digits of `n` in front of `acc`, most significant first;
`fuel` bounds the number of digits. -/
def utoa_aux : Nat → Nat → List Nat → List Nat
  | 0, _, acc => acc
  | fuel + 1, n, acc =>
    if n / 10 = 0 then (48 + n % 10) :: acc
    else utoa_aux fuel (n / 10) ((48 + n % 10) :: acc)

/-- The decimal numeral of a natural number. -/
def utoa (n : Nat) : List Nat := utoa_aux (n + 1) n []

/-- The text `sprintf` writes for `%i`. -/
def fmt_i (x : Int) : List Nat :=
  if x < 0 then 45 :: utoa (-x).toNat else utoa x.toNat

/-- The constants of the host (`vlc/vlc.h`, `vlc_playlist.h`, `limits.h`) that
the code names and that are declared outside the two source files. -/
structure host_t where
  VLC_SUCCESS : Int
  VLC_EGENERIC : Int
  PLAYLIST_INSERT : Int
  LONG_MAX : Int
  deriving DecidableEq

/-- The line-length cap `MAX_LINE`. -/
def MAX_LINE : Nat := 1024

/-- The session record `demux_sys_t` (its field `i_sid` is never read or
written by the code and is left out). -/
structure demux_sys_t where
  psz_uri : Option (List Nat)
  psz_server : Option (List Nat)
  psz_location : Option (List Nat)
  psz_name : Option (List Nat)
  psz_user : Option (List Nat)
  psz_password : Option (List Nat)
  i_duration : Int
  i_port : Int
  deriving DecidableEq

/-- Modelled from the spec: `stream_Peek( s, &p_peek, n )` of the host, "peek N
bytes without consuming": the window is the first `n` bytes of the stream, or
all of it when it is shorter; the returned size is the window's length. -/
def stream_Peek (s : List Nat) (n : Nat) : List Nat := s.take n

/-- The scan loop of `Activate`: move `p_peek` forward while `i_size` is not
zero and the marker is not at `p_peek`; the result is the final `p_peek`.
The loop starts with `i_size` 18 below the length of the window, so the 18
bytes that `strncasecmp` reads at `p_peek` are always inside the window. -/
def Activate_loop : Nat → List Nat → List Nat
  | 0, p_peek => p_peek
  | i_size + 1, p_peek =>
    if strncasecmp p_peek (lit "sgiNameServerHost=") (sizeof (lit "sgiNameServerHost=") - 1) ≠ 0 then
      Activate_loop i_size p_peek.tail
    else p_peek

/-- The session as `Activate` initialises it. -/
def Activate_sys : demux_sys_t :=
  { psz_uri := none, psz_server := none, psz_location := none, psz_name := none,
    psz_user := none, psz_password := none, i_duration := 0, i_port := 0 }

/-- The function `Activate` on a stream with bytes `s`: the return code and the
initialised session. -/
def Activate (H : host_t) (s : List Nat) : Int × demux_sys_t :=
  let p_peek := stream_Peek s MAX_LINE
  let i_size : Int := (p_peek.length : Int) - ((sizeof (lit "sgiNameServerHost=") - 1 : Nat) : Int)
  if i_size > 0 then
    let p_peek := Activate_loop i_size.toNat p_peek
    if strncasecmp p_peek (lit "sgiNameServerHost=") (sizeof (lit "sgiNameServerHost=") - 1) = 0 then
      (H.VLC_SUCCESS, Activate_sys)
    else (H.VLC_EGENERIC, Activate_sys)
  else (H.VLC_EGENERIC, Activate_sys)

/-- The test of the first loop of `ParseLine`: blank, tab, line feed, carriage
return. -/
def is_bol_blank (c : Nat) : Bool := c = 32 || c = 9 || c = 10 || c = 13

/-- The in-place rewrite of the scheme in `ParseLine`: bytes 0 to 3 become
`rtsp`. -/
def poke_rtsp (psz_bol : List Nat) : List Nat :=
  (((psz_bol.set 0 114).set 1 116).set 2 115).set 3 112

/-- The function `ParseLine`: the return code and the session after the line;
`none` when the line makes the code write through the NULL pointer that
`strrchr` returns (a `Stream="` line with no further double quote).
The test `if ( !psz_bol ) return 0;` is on a pointer that was just advanced
and is never NULL, so it has no branch here. -/
def ParseLine (H : host_t) (p_sys : demux_sys_t) (psz_line : List Nat) :
    Option (Int × demux_sys_t) :=
  let psz_bol := psz_line.dropWhile is_bol_blank
  if strncasecmp psz_bol (lit "rtsp://") (sizeof (lit "rtsp://") - 1) = 0 then
    some (H.VLC_SUCCESS, { p_sys with psz_uri := some (strdup psz_bol) })
  else if strncasecmp psz_bol (lit "Stream=\"") (sizeof (lit "Stream=\"") - 1) = 0 then
    let psz_bol := psz_bol.drop (sizeof (lit "Stream=\"") - 1)
    match strrchr psz_bol 34 with
    | none => none
    | some i =>
      let psz_bol := psz_bol.set i NUL
      let psz_bol :=
        if strncasecmp psz_bol (lit "xdma://") (sizeof (lit "xdma://") - 1) = 0 then poke_rtsp psz_bol
        else psz_bol
      some (H.VLC_SUCCESS, { p_sys with psz_uri := some (strdup psz_bol) })
  else if strncasecmp psz_bol (lit "sgiNameServerHost=") (sizeof (lit "sgiNameServerHost=") - 1) = 0 then
    let psz_bol := psz_bol.drop (sizeof (lit "sgiNameServerHost=") - 1)
    some (H.VLC_SUCCESS, { p_sys with psz_server := some (strdup psz_bol) })
  else if strncasecmp psz_bol (lit "sgiMovieName=") (sizeof (lit "sgiMovieName=") - 1) = 0 then
    let psz_bol := psz_bol.drop (sizeof (lit "sgiMovieName=") - 1)
    some (H.VLC_SUCCESS, { p_sys with psz_location := some (strdup psz_bol) })
  else if strncasecmp psz_bol (lit "sgiUserAccount=") (sizeof (lit "sgiUserAccount=") - 1) = 0 then
    let psz_bol := psz_bol.drop (sizeof (lit "sgiUserAccount=") - 1)
    some (H.VLC_SUCCESS, { p_sys with psz_user := some (strdup psz_bol) })
  else if strncasecmp psz_bol (lit "sgiUserPassword=") (sizeof (lit "sgiUserPassword=") - 1) = 0 then
    let psz_bol := psz_bol.drop (sizeof (lit "sgiUserPassword=") - 1)
    some (H.VLC_SUCCESS, { p_sys with psz_password := some (strdup psz_bol) })
  else if strncasecmp psz_bol (lit "sgiShowingName=") (sizeof (lit "sgiShowingName=") - 1) = 0 then
    let psz_bol := psz_bol.drop (sizeof (lit "sgiShowingName=") - 1)
    some (H.VLC_SUCCESS, { p_sys with psz_name := some (strdup psz_bol) })
  else if strncasecmp psz_bol (lit "sgiDuration=") (sizeof (lit "sgiDuration=") - 1) = 0 then
    let psz_bol := psz_bol.drop (sizeof (lit "sgiDuration=") - 1)
    some (H.VLC_SUCCESS, { p_sys with i_duration := strtol H.LONG_MAX psz_bol })
  else if strncasecmp psz_bol (lit "sgiRtspPort=") (sizeof (lit "sgiRtspPort=") - 1) = 0 then
    let psz_bol := psz_bol.drop (sizeof (lit "sgiRtspPort=") - 1)
    some (H.VLC_SUCCESS, { p_sys with i_port := int_of_long (strtol H.LONG_MAX psz_bol) })
  else
    some (0, p_sys)

/-- The playlist found by `vlc_object_find`, as far as `Demux` reads it. -/
structure playlist_t where
  i_index : Int
  deriving DecidableEq

/-- The arguments of one call of `playlist_AddExt` (after the playlist
itself); the last two, `NULL` and `0`, are the absent options. -/
structure AddExt_t where
  psz_uri : Option (List Nat)
  psz_name : Option (List Nat)
  i_mode : Int
  i_pos : Int
  i_duration : Int
  deriving DecidableEq

/-- What a run of `Demux` leaves behind: the return code, the session, the
lines of the stream not yet read, the playlist item whose `b_autodeletion`
was set, and the calls of `playlist_AddExt` in order. -/
structure Demux_t where
  ret : Int
  p_sys : demux_sys_t
  s : List (List Nat)
  b_autodeletion : Option Int
  added : List AddExt_t
  deriving DecidableEq

/-- The read loop of `Demux`. The stream is the list of the lines that the
host's `stream_ReadLine` returns before it returns NULL (in the spec "a
line-reading source producing one line per call"); each line goes through
`ParseLine`, whose return code is dropped, and a line on which `ParseLine`
does not complete ends the run. -/
def Demux_loop (H : host_t) : demux_sys_t → List (List Nat) → Option demux_sys_t
  | p_sys, [] => some p_sys
  | p_sys, psz_line :: s =>
    match ParseLine H p_sys psz_line with
    | none => none
    | some r => Demux_loop H r.2 s

/-- The synthesis step of `Demux` (the block under `psz_uri == NULL`): the
session with the URI built by `sprintf`; `none` when `sprintf` writes past the
end of `temp`. -/
def Demux_synth (p_sys : demux_sys_t) : Option demux_sys_t :=
  match p_sys.psz_uri with
  | some _ => some p_sys
  | none =>
    match p_sys.psz_server, p_sys.psz_location with
    | some psz_server, some psz_location =>
      let size := sizeof (lit "rtsp/live://" ++ lit ":" ++ lit "123456789")
        + strlen psz_server + strlen psz_location
      let temp := lit "rtsp/live://" ++ strdup psz_server ++ lit ":"
        ++ fmt_i (if p_sys.i_port > 0 then p_sys.i_port else 554) ++ strdup psz_location
      if temp.length + 1 ≤ size then some { p_sys with psz_uri := some (strdup temp) }
      else none
    | _, _ => some p_sys

/-- The function `Demux`, given the session, the playlist that
`vlc_object_find` returns (`none` for NULL) and the lines of the stream: what
the run leaves behind, `none` when the read loop or `sprintf` does not
complete. -/
def Demux (H : host_t) (p_sys : demux_sys_t) (p_playlist : Option playlist_t)
    (s : List (List Nat)) : Option Demux_t :=
  match p_playlist with
  | none => some { ret := -1, p_sys := p_sys, s := s, b_autodeletion := none, added := [] }
  | some pl =>
    let i_position := pl.i_index + 1
    match Demux_loop H p_sys s with
    | none => none
    | some p_sys =>
      match Demux_synth p_sys with
      | none => none
      | some p_sys =>
        some { ret := H.VLC_SUCCESS, p_sys := p_sys, s := [],
               b_autodeletion := some pl.i_index,
               added := [{ psz_uri := p_sys.psz_uri,
                           psz_name := if p_sys.psz_name.isSome then p_sys.psz_name else p_sys.psz_uri,
                           i_mode := H.PLAYLIST_INSERT, i_pos := i_position,
                           i_duration := p_sys.i_duration }] }

/-- The values of the host constants in VLC (`VLC_SUCCESS` is `-0`,
`VLC_EGENERIC` is `-666`, `PLAYLIST_INSERT` is `0x0001`) on a platform with a
32-bit `long`, used for the concrete instances. -/
def H0 : host_t :=
  { VLC_SUCCESS := 0, VLC_EGENERIC := -666, PLAYLIST_INSERT := 1, LONG_MAX := 2147483647 }

/-- The URIs of the insertion calls a run of `Demux` made, `none` when the run
did not complete. -/
def delivered (r : Option Demux_t) : Option (List (Option (List Nat))) :=
  r.map fun d => d.added.map AddExt_t.psz_uri

/-- The titles of the insertion calls a run of `Demux` made. -/
def titles (r : Option Demux_t) : Option (List (Option (List Nat))) :=
  r.map fun d => d.added.map AddExt_t.psz_name

/-- The line matches the literal `l` at its first byte that is not blank, the
test `!strncasecmp( psz_bol, l, sizeof(l) - 1 )` of `ParseLine`. -/
def at_key (l : List Nat) (psz_line : List Nat) : Bool :=
  strncasecmp (psz_line.dropWhile is_bol_blank) l (sizeof l - 1) = 0

/-- The nine literals that `ParseLine` tests, in the order of its tests. -/
def keys : List (List Nat) :=
  [lit "rtsp://", lit "Stream=\"", lit "sgiNameServerHost=", lit "sgiMovieName=",
   lit "sgiUserAccount=", lit "sgiUserPassword=", lit "sgiShowingName=",
   lit "sgiDuration=", lit "sgiRtspPort="]

/-- The line matches none of the nine literals of `ParseLine`. -/
def no_key (psz_line : List Nat) : Bool := keys.all fun l => !at_key l psz_line

/-- The typical MediaBase file of the header comment of `sgimb.c`, line by
line. -/
def typical_file : List (List Nat) :=
  [lit "sgiNameServerHost=host.name.tld",
   lit "Stream=\"xdma://host.name.tld/demo/a_very_cool.mpg\"",
   lit "sgiMovieName=/demo/a_very_cool.mpg",
   lit "sgiAuxState=1",
   lit "sgiFormatName=PARTNER_41_MPEG-4",
   lit "sgiBitrate=1630208",
   lit "sgiDuration=378345000",
   lit "sgiQTFileBegin",
   lit "rtsptext",
   lit "rtsp://host.name.tld/demo/a_very_cool.mpg",
   lit "sgiQTFileEnd",
   lit "sgiApplicationName=MediaBaseURL",
   lit "sgiElapsedTime=0",
   lit "sgiServerVersion=6.1.2",
   lit "sgiRtspPort=554",
   lit "AutoStart=True",
   lit "sgiUserAccount=pid=1724&time=1078527309&displayText=You%20are%20logged%20as%20guest&",
   lit "sgiUserPassword="]

/-- The rewrite of a `Stream="` value in the words of the spec, not taken from
the code: when the value begins with `xdma://`, compared without regard to
case, its first four bytes are replaced by `rtsp`; otherwise it is unchanged. -/
def rewrite_spec (v : List Nat) : List Nat :=
  if (v.take 7).map tolower = lit "xdma://" then lit "rtsp" ++ v.drop 4 else v

/-- The marker lies in the window `w` at offset `k`: the 18 bytes from `k` on
are inside the window and equal `sgiNameServerHost=` up to ASCII case. -/
def marker_at (w : List Nat) (k : Nat) : Prop :=
  k + 18 ≤ w.length ∧
    ((w.drop k).take 18).map tolower = (lit "sgiNameServerHost=").map tolower

/-- The value of a line that matches the literal `k`: the text after the
literal, as `strdup` copies it. -/
def key_value (k : List Nat) (psz_line : List Nat) : List Nat :=
  strdup ((psz_line.dropWhile is_bol_blank).drop k.length)

/-- What the proofs need of a decimal numeral `ds` of `n`: it is not empty,
made of digits, without leading zero unless `n` is `0`, read back as `n` by
the digit loop of `strtol`, and of at most `k` digits when `n < 10 ^ k`. -/
def is_numeral (ds : List Nat) (n : Nat) : Prop :=
  ds ≠ [] ∧ (∀ x ∈ ds, 48 ≤ x ∧ x ≤ 57) ∧ (1 ≤ n → 49 ≤ ds.headD 0)
  ∧ (∀ a rest, strtol_digits 10 (ds ++ rest) a = strtol_digits 10 rest (a * 10 ^ ds.length + n))
  ∧ (∀ k, 1 ≤ k → n < 10 ^ k → ds.length ≤ k)

/-- The fields of the session that `ParseLine` writes. -/
inductive field_t where
  | uri | server | location | user | password | name | duration | port
  deriving DecidableEq

/-- The session with one field written: the string `v` for a string field,
the number `d` for `i_duration` and `i_port`; every other field is kept. -/
def write_field (f : field_t) (v : List Nat) (d : Int) (p_sys : demux_sys_t) : demux_sys_t :=
  match f with
  | .uri => { p_sys with psz_uri := some v }
  | .server => { p_sys with psz_server := some v }
  | .location => { p_sys with psz_location := some v }
  | .user => { p_sys with psz_user := some v }
  | .password => { p_sys with psz_password := some v }
  | .name => { p_sys with psz_name := some v }
  | .duration => { p_sys with i_duration := d }
  | .port => { p_sys with i_port := d }

/-- The field that the branch of each of the nine literals assigns, in the
order of `keys`. -/
def key_fields : List field_t :=
  [.uri, .uri, .server, .location, .user, .password, .name, .duration, .port]

/-- The field assigned by the branch of the literal `k`. -/
def key_field (k : List Nat) : Option field_t := (keys.zip key_fields).lookup k

/-- The field a line writes: the field of the first literal it matches, `none`
when it matches no literal. -/
def line_field (psz_line : List Nat) : Option field_t :=
  (keys.find? fun k => at_key k psz_line).bind key_field

/-- A line is well formed when it is not a `Stream="` line or has a double
quote after the opening one (before the end of the string). -/
def well_formed (psz_line : List Nat) : Bool :=
  !at_key (lit "Stream=\"") psz_line ||
    (strrchr ((psz_line.dropWhile is_bol_blank).drop (lit "Stream=\"").length) 34).isSome

/-- The text `r` does not start with a number: after the blanks that `strtol`
skips and an optional sign, the next byte is not a decimal digit (the end of
the text included). -/
def no_number (r : List Nat) : Prop :=
  let s := r.dropWhile isspace
  let t := if deref s = 45 ∨ deref s = 43 then s.tail else s
  ¬ (48 ≤ deref t ∧ deref t ≤ 57)

/-! ## Lemmas on the libc routines -/

theorem tolower_eq_zero {c : Nat} : tolower c = 0 ↔ c = 0 := by
  unfold tolower; split <;> omega

theorem strdup_of_no_NUL {v : List Nat} (h : NUL ∉ v) : strdup v = v := by
  induction v with
  | nil => rfl
  | cons a v ih =>
    have ha : a ≠ NUL := fun e => h (by simp [e])
    have hv : NUL ∉ v := fun e => h (by simp [e])
    simp [strdup, ha, ih hv]

theorem strlen_of_no_NUL {v : List Nat} (h : NUL ∉ v) : strlen v = v.length := by
  induction v with
  | nil => rfl
  | cons a v ih =>
    have ha : a ≠ NUL := fun e => h (by simp [e])
    have hv : NUL ∉ v := fun e => h (by simp [e])
    simp [strlen, ha, ih hv]

theorem strlen_strdup (v : List Nat) : (strdup v).length = strlen v := by
  induction v with
  | nil => rfl
  | cons a v ih => by_cases ha : a = NUL <;> simp [strdup, strlen, ha, ih]

theorem strdup_no_NUL (v : List Nat) : NUL ∉ strdup v := by
  induction v with
  | nil => simp [strdup]
  | cons a v ih =>
    by_cases ha : a = NUL
    · simp [strdup, ha]
    · simp only [strdup, ha, if_false, List.mem_cons, not_or]
      exact ⟨fun e => ha e.symm, ih⟩

/-- Only the first `n` bytes of the first string count. -/
theorem strncasecmp_append (a v b : List Nat) (n : Nat) (h : n ≤ a.length) :
    strncasecmp (a ++ v) b n = strncasecmp a b n := by
  induction n generalizing a b with
  | zero => simp [strncasecmp]
  | succ n ih =>
    cases a with
    | nil => simp at h
    | cons x a =>
      simp only [List.length_cons, Nat.add_le_add_iff_right] at h
      simp only [strncasecmp, List.cons_append, deref, List.headD_cons, List.tail_cons]
      rw [ih a b.tail h]

/-- A difference inside `a` is a difference of every string that starts with
`a`. -/
theorem strncasecmp_append_ne (a v b : List Nat) (n : Nat) (h : a.length ≤ n)
    (hne : strncasecmp a b a.length ≠ 0) : strncasecmp (a ++ v) b n ≠ 0 := by
  induction a generalizing b n with
  | nil => simp [strncasecmp] at hne
  | cons x a ih =>
    obtain ⟨m, rfl⟩ : ∃ m, n = m + 1 := ⟨n - 1, by simp at h; omega⟩
    simp only [List.length_cons, Nat.add_le_add_iff_right] at h
    simp only [strncasecmp, List.length_cons, List.cons_append, deref, List.headD_cons,
      List.tail_cons] at hne ⊢
    split
    · next hd => exact fun e => hd (by omega)
    · next hd =>
      rw [if_neg hd] at hne
      split
      · next hx => simp [hx] at hne
      · next hx =>
        rw [if_neg hx] at hne
        exact ih b.tail m h hne

/-- For a literal `b` without NUL, `strncasecmp` returns `0` exactly when the
first `n` bytes agree up to case. -/
theorem strncasecmp_eq_zero_iff (s b : List Nat) (n : Nat) (hb : NUL ∉ b)
    (hn : n ≤ b.length) :
    strncasecmp s b n = 0 ↔ (s.take n).map tolower = (b.take n).map tolower := by
  induction n generalizing s b with
  | zero => simp [strncasecmp]
  | succ n ih =>
    cases b with
    | nil => simp at hn
    | cons y b =>
      have hy : y ≠ 0 := fun e => hb (by simp [NUL, e])
      have hb' : NUL ∉ b := fun e => hb (by simp [e])
      have hty : tolower y ≠ 0 := fun e => hy (tolower_eq_zero.1 e)
      simp only [List.length_cons, Nat.add_le_add_iff_right] at hn
      cases s with
      | nil =>
        simp only [strncasecmp, deref, List.headD_nil, List.headD_cons, NUL]
        have : tolower 0 = 0 := tolower_eq_zero.2 rfl
        rw [this, if_pos (fun e => hty e.symm)]
        simp; omega
      | cons x s =>
        simp only [strncasecmp, deref, List.headD_cons, List.tail_cons, List.take_succ_cons,
          List.map_cons, List.cons.injEq]
        by_cases hxy : tolower x = tolower y
        · have hx : x ≠ NUL := fun e => hty (by rw [← hxy, e]; exact tolower_eq_zero.2 rfl)
          simp only [hxy, ne_eq, not_true_eq_false, if_false, hx, true_and]
          exact ih s b hb' hn
        · simp only [hxy, ne_eq, not_false_eq_true, if_true, false_and, iff_false]
          omega

theorem sizeof_sub_one (l : List Nat) : sizeof l - 1 = l.length := by
  simp [sizeof]

theorem strncasecmp_self (a : List Nat) (n : Nat) : strncasecmp a a n = 0 := by
  induction n generalizing a with
  | zero => simp [strncasecmp]
  | succ n ih => simp [strncasecmp, ih]

/-! ## Lemmas on the tests of `ParseLine` -/

theorem dropWhile_blank_append (a v : List Nat) (ha : a ≠ [])
    (hb : is_bol_blank (deref a) = false) :
    (a ++ v).dropWhile is_bol_blank = a ++ v := by
  cases a with
  | nil => exact absurd rfl ha
  | cons x a =>
    simp only [deref, List.headD_cons] at hb
    simp [List.dropWhile, hb]

theorem at_key_iff (l psz_line : List Nat) :
    at_key l psz_line = true ↔
      strncasecmp (psz_line.dropWhile is_bol_blank) l l.length = 0 := by
  simp [at_key, sizeof]

/-- A line that starts with the literal itself matches it. -/
theorem at_key_append (l v : List Nat) (ha : l ≠ [])
    (hb : is_bol_blank (deref l) = false) : at_key l (l ++ v) = true := by
  rw [at_key_iff, dropWhile_blank_append l v ha hb,
    strncasecmp_append l v l l.length (Nat.le_refl _)]
  exact strncasecmp_self l _

/-- Two literals that a line matches agree, up to case, on the length of the
shorter one. -/
theorem at_key_agree (l1 l2 psz_line : List Nat) (h1 : NUL ∉ l1) (h2 : NUL ∉ l2)
    (m1 : at_key l1 psz_line = true) (m2 : at_key l2 psz_line = true) :
    (l1.take (min l1.length l2.length)).map tolower
      = (l2.take (min l1.length l2.length)).map tolower := by
  rw [at_key_iff, strncasecmp_eq_zero_iff _ _ _ h1 (Nat.le_refl _)] at m1
  rw [at_key_iff, strncasecmp_eq_zero_iff _ _ _ h2 (Nat.le_refl _)] at m2
  have e1 := congrArg (List.take (min l1.length l2.length)) m1
  have e2 := congrArg (List.take (min l1.length l2.length)) m2
  simp only [← List.map_take, List.take_take] at e1 e2
  rw [Nat.min_eq_left (Nat.min_le_left _ _)] at e1
  rw [Nat.min_eq_left (Nat.min_le_right _ _)] at e2
  rw [← e1, ← e2]

/-- No line matches two of the nine literals. -/
theorem at_key_exclusive (l1 l2 psz_line : List Nat) (h1 : l1 ∈ keys) (h2 : l2 ∈ keys)
    (hne : l1 ≠ l2) (m1 : at_key l1 psz_line = true) : at_key l2 psz_line = false := by
  cases hm : at_key l2 psz_line with
  | false => rfl
  | true =>
    exfalso
    have key : ∀ a ∈ keys, ∀ b ∈ keys, a ≠ b →
        (NUL ∉ a ∧ NUL ∉ b) ∧ (a.take (min a.length b.length)).map tolower
          ≠ (b.take (min a.length b.length)).map tolower := by decide
    obtain ⟨⟨n1, n2⟩, d⟩ := key l1 h1 l2 h2 hne
    exact d (at_key_agree l1 l2 psz_line n1 n2 m1 hm)

theorem at_key_false_iff (l psz_line : List Nat) :
    at_key l psz_line = false ↔
      ¬ strncasecmp (psz_line.dropWhile is_bol_blank) l l.length = 0 := by
  simp [at_key, sizeof]

/-- A line that matches no literal leaves the session as it is. -/
theorem ParseLine_no_key (H : host_t) (p_sys : demux_sys_t) (l : List Nat)
    (h : no_key l = true) : ParseLine H p_sys l = some (0, p_sys) := by
  simp only [no_key, keys, List.all_cons, List.all_nil, Bool.and_true, Bool.and_eq_true,
    Bool.not_eq_true', at_key_false_iff] at h
  obtain ⟨h1, h2, h3, h4, h5, h6, h7, h8, h9⟩ := h
  simp only [ParseLine, sizeof_sub_one, h1, h2, h3, h4, h5, h6, h7, h8, h9, if_false]

/-- The branch of `sgiNameServerHost=`. -/
theorem ParseLine_server (H : host_t) (p_sys : demux_sys_t) (l : List Nat)
    (h : at_key (lit "sgiNameServerHost=") l = true) :
    ParseLine H p_sys l = some (H.VLC_SUCCESS, { p_sys with
      psz_server := some (strdup ((l.dropWhile is_bol_blank).drop
        (lit "sgiNameServerHost=").length)) }) := by
  have e1 := at_key_exclusive _ (lit "rtsp://") l (by decide) (by decide) (by decide) h
  have e2 := at_key_exclusive _ (lit "Stream=\"") l (by decide) (by decide) (by decide) h
  rw [at_key_false_iff] at e1 e2
  rw [at_key_iff] at h
  simp only [ParseLine, sizeof_sub_one, e1, e2, h, if_false, if_true]

/-- The branch of `sgiMovieName=`. -/
theorem ParseLine_location (H : host_t) (p_sys : demux_sys_t) (l : List Nat)
    (h : at_key (lit "sgiMovieName=") l = true) :
    ParseLine H p_sys l = some (H.VLC_SUCCESS, { p_sys with
      psz_location := some (strdup ((l.dropWhile is_bol_blank).drop
        (lit "sgiMovieName=").length)) }) := by
  have e1 := at_key_exclusive _ (lit "rtsp://") l (by decide) (by decide) (by decide) h
  have e2 := at_key_exclusive _ (lit "Stream=\"") l (by decide) (by decide) (by decide) h
  have e3 := at_key_exclusive _ (lit "sgiNameServerHost=") l (by decide) (by decide) (by decide) h
  rw [at_key_false_iff] at e1 e2 e3
  rw [at_key_iff] at h
  simp only [ParseLine, sizeof_sub_one, e1, e2, e3, h, if_false, if_true]

/-- The branch of `sgiShowingName=`. -/
theorem ParseLine_name (H : host_t) (p_sys : demux_sys_t) (l : List Nat)
    (h : at_key (lit "sgiShowingName=") l = true) :
    ParseLine H p_sys l = some (H.VLC_SUCCESS, { p_sys with
      psz_name := some (strdup ((l.dropWhile is_bol_blank).drop
        (lit "sgiShowingName=").length)) }) := by
  have e1 := at_key_exclusive _ (lit "rtsp://") l (by decide) (by decide) (by decide) h
  have e2 := at_key_exclusive _ (lit "Stream=\"") l (by decide) (by decide) (by decide) h
  have e3 := at_key_exclusive _ (lit "sgiNameServerHost=") l (by decide) (by decide) (by decide) h
  have e4 := at_key_exclusive _ (lit "sgiMovieName=") l (by decide) (by decide) (by decide) h
  have e5 := at_key_exclusive _ (lit "sgiUserAccount=") l (by decide) (by decide) (by decide) h
  have e6 := at_key_exclusive _ (lit "sgiUserPassword=") l (by decide) (by decide) (by decide) h
  rw [at_key_false_iff] at e1 e2 e3 e4 e5 e6
  rw [at_key_iff] at h
  simp only [ParseLine, sizeof_sub_one, e1, e2, e3, e4, e5, e6, h, if_false, if_true]

/-- The branch of `sgiRtspPort=`. -/
theorem ParseLine_port (H : host_t) (p_sys : demux_sys_t) (l : List Nat)
    (h : at_key (lit "sgiRtspPort=") l = true) :
    ParseLine H p_sys l = some (H.VLC_SUCCESS, { p_sys with
      i_port := int_of_long (strtol H.LONG_MAX ((l.dropWhile is_bol_blank).drop
        (lit "sgiRtspPort=").length)) }) := by
  have e1 := at_key_exclusive _ (lit "rtsp://") l (by decide) (by decide) (by decide) h
  have e2 := at_key_exclusive _ (lit "Stream=\"") l (by decide) (by decide) (by decide) h
  have e3 := at_key_exclusive _ (lit "sgiNameServerHost=") l (by decide) (by decide) (by decide) h
  have e4 := at_key_exclusive _ (lit "sgiMovieName=") l (by decide) (by decide) (by decide) h
  have e5 := at_key_exclusive _ (lit "sgiUserAccount=") l (by decide) (by decide) (by decide) h
  have e6 := at_key_exclusive _ (lit "sgiUserPassword=") l (by decide) (by decide) (by decide) h
  have e7 := at_key_exclusive _ (lit "sgiShowingName=") l (by decide) (by decide) (by decide) h
  have e8 := at_key_exclusive _ (lit "sgiDuration=") l (by decide) (by decide) (by decide) h
  rw [at_key_false_iff] at e1 e2 e3 e4 e5 e6 e7 e8
  rw [at_key_iff] at h
  simp only [ParseLine, sizeof_sub_one, e1, e2, e3, e4, e5, e6, e7, e8, h, if_false, if_true]

/-- A line made of a literal and a value: the value is what follows the
literal. -/
theorem value_of_append (l v : List Nat) (ha : l ≠ [])
    (hb : is_bol_blank (deref l) = false) :
    ((l ++ v).dropWhile is_bol_blank).drop l.length = v := by
  rw [dropWhile_blank_append l v ha hb]
  simp

/-! ## The read loop on files made of server and location lines -/

theorem no_key_append_false (k v : List Nat) (hk : k ∈ keys) (ha : k ≠ [])
    (hb : is_bol_blank (deref k) = false) : no_key (k ++ v) = false := by
  cases hn : no_key (k ++ v) with
  | false => rfl
  | true =>
    have h1 := at_key_append k v ha hb
    simp only [no_key, List.all_eq_true] at hn
    have h2 := hn k hk
    simp [h1] at h2

/-- The read loop on lines that are the server line, the location line or
lines matching no literal: only the two fields are written. -/
theorem Demux_loop_server_location (H : host_t) (h m : List Nat) (hh : NUL ∉ h)
    (hm : NUL ∉ m) (s : List (List Nat)) :
    ∀ p_sys : demux_sys_t,
    (∀ l ∈ s, no_key l = true ∨ l = lit "sgiNameServerHost=" ++ h ∨ l = lit "sgiMovieName=" ++ m) →
    Demux_loop H p_sys s = some { p_sys with
      psz_server := if lit "sgiNameServerHost=" ++ h ∈ s then some h else p_sys.psz_server,
      psz_location := if lit "sgiMovieName=" ++ m ∈ s then some m else p_sys.psz_location } := by
  have kA : at_key (lit "sgiNameServerHost=") (lit "sgiNameServerHost=" ++ h) = true :=
    at_key_append _ _ (by decide) (by decide)
  have kB : at_key (lit "sgiMovieName=") (lit "sgiMovieName=" ++ m) = true :=
    at_key_append _ _ (by decide) (by decide)
  have nA : no_key (lit "sgiNameServerHost=" ++ h) = false :=
    no_key_append_false _ _ (by decide) (by decide) (by decide)
  have nB : no_key (lit "sgiMovieName=" ++ m) = false :=
    no_key_append_false _ _ (by decide) (by decide) (by decide)
  have hAB : lit "sgiNameServerHost=" ++ h ≠ lit "sgiMovieName=" ++ m := by
    intro e
    have := at_key_exclusive _ (lit "sgiMovieName=") _ (by decide) (by decide) (by decide) kA
    rw [e, kB] at this
    exact Bool.noConfusion this
  induction s with
  | nil => intro p_sys _; simp [Demux_loop]
  | cons l s ih =>
    intro p_sys hs
    have hs' : ∀ l ∈ s, no_key l = true ∨ l = lit "sgiNameServerHost=" ++ h
        ∨ l = lit "sgiMovieName=" ++ m := fun x hx => hs x (List.mem_cons_of_mem _ hx)
    rcases hs l (List.mem_cons_self _ _) with hl | hl | hl
    · have d1 : lit "sgiNameServerHost=" ++ h ≠ l := fun e => by rw [← e, nA] at hl; exact Bool.noConfusion hl
      have d2 : lit "sgiMovieName=" ++ m ≠ l := fun e => by rw [← e, nB] at hl; exact Bool.noConfusion hl
      simp only [Demux_loop, ParseLine_no_key H p_sys l hl, ih p_sys hs', List.mem_cons, d1, d2,
        false_or]
    · subst hl
      simp only [Demux_loop, ParseLine_server H p_sys _ kA,
        value_of_append (lit "sgiNameServerHost=") h (by decide) (by decide), strdup_of_no_NUL hh, ih _ hs', List.mem_cons,
        true_or, if_true, hAB.symm, false_or, ite_self]
    · subst hl
      simp only [Demux_loop, ParseLine_location H p_sys _ kB,
        value_of_append (lit "sgiMovieName=") m (by decide) (by decide), strdup_of_no_NUL hm, ih _ hs', List.mem_cons,
        true_or, if_true, hAB, false_or, ite_self]

theorem fmt_i_554 : fmt_i 554 = lit "554" := by decide

/-- The synthesis step on a session without URI whose server and location are
set and free of NUL, when the text of the port `q` is short enough for
`temp`. -/
theorem Demux_synth_of_fields (p_sys : demux_sys_t) (h m : List Nat) (q : Int)
    (hh : NUL ∉ h) (hm : NUL ∉ m) (hu : p_sys.psz_uri = none)
    (hs : p_sys.psz_server = some h) (hl : p_sys.psz_location = some m)
    (hq : (if p_sys.i_port > 0 then p_sys.i_port else 554) = q)
    (hp : NUL ∉ fmt_i q) (hlen : (fmt_i q).length ≤ 9) :
    Demux_synth p_sys = some { p_sys with
      psz_uri := some (lit "rtsp/live://" ++ h ++ lit ":" ++ fmt_i q ++ m) } := by
  have hsize : (lit "rtsp/live://" ++ h ++ lit ":" ++ fmt_i q ++ m).length + 1
      ≤ sizeof (lit "rtsp/live://" ++ lit ":" ++ lit "123456789") + h.length + m.length := by
    have e1 : (lit "rtsp/live://").length = 12 := by decide
    have e2 : (lit ":").length = 1 := by decide
    have e3 : sizeof (lit "rtsp/live://" ++ lit ":" ++ lit "123456789") = 23 := by decide
    simp only [List.length_append, e1, e2, e3]
    omega
  have hnul : NUL ∉ lit "rtsp/live://" ++ h ++ lit ":" ++ fmt_i q ++ m := by
    have e1 : NUL ∉ lit "rtsp/live://" := by decide
    have e2 : NUL ∉ lit ":" := by decide
    simp only [List.mem_append, not_or]
    exact ⟨⟨⟨⟨e1, hh⟩, e2⟩, hp⟩, hm⟩
  simp only [Demux_synth, hu, hs, hl, hq, strdup_of_no_NUL hh, strdup_of_no_NUL hm,
    strlen_of_no_NUL hh, strlen_of_no_NUL hm, hsize, if_true, strdup_of_no_NUL hnul]

/-- Claim C1: when the lines of the file are the line `sgiNameServerHost=h` and
the line `sgiMovieName=m`, in either order and among any lines that match none
of the nine literals, with `h` and `m` free of NUL, `Demux` makes one insertion
call and its URI is `rtsp/live://` followed by `h`, `:554` and `m`. -/
theorem C1_default_port_uri (H : host_t) (pl : playlist_t) (h m : List Nat)
    (s : List (List Nat)) (hh : NUL ∉ h) (hm : NUL ∉ m)
    (hs : (s.filter fun l => !no_key l).Perm
      [lit "sgiNameServerHost=" ++ h, lit "sgiMovieName=" ++ m]) :
    delivered (Demux H Activate_sys (some pl) s)
      = some [some (lit "rtsp/live://" ++ h ++ lit ":554" ++ m)] := by
  have hall : ∀ l ∈ s, no_key l = true ∨ l = lit "sgiNameServerHost=" ++ h
      ∨ l = lit "sgiMovieName=" ++ m := by
    intro l hl
    cases hn : no_key l with
    | true => exact Or.inl rfl
    | false =>
      have : l ∈ s.filter fun l => !no_key l := List.mem_filter.2 ⟨hl, by simp [hn]⟩
      have := hs.mem_iff.1 this
      simpa using this
  have hA : lit "sgiNameServerHost=" ++ h ∈ s :=
    (List.mem_filter.1 (hs.mem_iff.2 (by simp))).1
  have hB : lit "sgiMovieName=" ++ m ∈ s :=
    (List.mem_filter.1 (hs.mem_iff.2 (by simp))).1
  have hloop := Demux_loop_server_location H h m hh hm s Activate_sys hall
  simp only [hA, hB, if_true] at hloop
  have hsyn := Demux_synth_of_fields { Activate_sys with psz_server := some h, psz_location := some m }
    h m 554 hh hm rfl rfl rfl rfl (by decide) (by decide)
  have ecat : lit "rtsp/live://" ++ h ++ lit ":" ++ fmt_i 554 ++ m
      = lit "rtsp/live://" ++ h ++ lit ":554" ++ m := by
    rw [fmt_i_554]
    have : lit ":554" = lit ":" ++ lit "554" := by decide
    rw [this]
    simp only [List.append_assoc]
  rw [ecat] at hsyn
  simp only [delivered, Demux, hloop, hsyn, Option.map_some', List.map_cons, List.map_nil]

/-- Claim C1 at the file of the spec: the two lines around a blank line give
`rtsp/live://h.example.com:554/demo/a.mpg`. -/
theorem C1_default_port_uri_witness :
    delivered (Demux H0 Activate_sys (some ⟨0⟩)
        [lit "sgiMovieName=/demo/a.mpg", lit "", lit "sgiNameServerHost=h.example.com"])
      = some [some (lit "rtsp/live://" ++ lit "h.example.com" ++ lit ":554" ++ lit "/demo/a.mpg")] :=
  C1_default_port_uri H0 ⟨0⟩ (lit "h.example.com") (lit "/demo/a.mpg") _ (by decide) (by decide)
    (by decide)

/-- After the read loop on the typical file the URI is the one of its
`rtsp://` line, whatever the constants of the host. -/
theorem Demux_loop_typical_file (H : host_t) :
    (Demux_loop H Activate_sys typical_file).map demux_sys_t.psz_uri
      = some (some (lit "rtsp://host.name.tld/demo/a_very_cool.mpg")) := by
  rfl

/-- Claim C2: when the session after the read loop has its `psz_uri` set to
`u`, `Demux` makes one insertion call and its URI is `u`, whatever the other
fields hold; and on the typical MediaBase file of the header comment the URI
of the call is `rtsp://host.name.tld/demo/a_very_cool.mpg`. -/
theorem C2_explicit_uri_unchanged (H : host_t) (pl : playlist_t) (p_sys p_end : demux_sys_t)
    (s : List (List Nat)) (u : List Nat) (hloop : Demux_loop H p_sys s = some p_end)
    (hu : p_end.psz_uri = some u) :
    delivered (Demux H p_sys (some pl) s) = some [some u]
    ∧ delivered (Demux H Activate_sys (some pl) typical_file)
        = some [some (lit "rtsp://host.name.tld/demo/a_very_cool.mpg")] := by
  have gen : ∀ (q q_end : demux_sys_t) (t : List (List Nat)) (v : List Nat),
      Demux_loop H q t = some q_end → q_end.psz_uri = some v →
      delivered (Demux H q (some pl) t) = some [some v] := by
    intro q q_end t v h1 h2
    simp only [delivered, Demux, h1, Demux_synth, h2, Option.map_some', List.map_cons,
      List.map_nil]
  refine ⟨gen p_sys p_end s u hloop hu, ?_⟩
  have h := Demux_loop_typical_file H
  cases hq : Demux_loop H Activate_sys typical_file with
  | none => rw [hq] at h; exact Option.noConfusion h
  | some q_end =>
    rw [hq] at h
    exact gen Activate_sys q_end typical_file _ hq (Option.some.inj h)

/-- Claim C2 at the typical file with the constants `H0`: the session after
the loop holds the `rtsp://` line and that line is delivered. -/
theorem C2_explicit_uri_unchanged_witness :
    (Demux_loop H0 Activate_sys typical_file).map demux_sys_t.psz_uri
        = some (some (lit "rtsp://host.name.tld/demo/a_very_cool.mpg"))
    ∧ delivered (Demux H0 Activate_sys (some ⟨0⟩) typical_file)
        = some [some (lit "rtsp://host.name.tld/demo/a_very_cool.mpg")] :=
  ⟨by decide,
   (C2_explicit_uri_unchanged H0 ⟨0⟩ Activate_sys
      { psz_uri := some (lit "rtsp://host.name.tld/demo/a_very_cool.mpg"),
        psz_server := some (lit "host.name.tld"),
        psz_location := some (lit "/demo/a_very_cool.mpg"),
        psz_name := none,
        psz_user := some (lit "pid=1724&time=1078527309&displayText=You%20are%20logged%20as%20guest&"),
        psz_password := some [],
        i_duration := 378345000,
        i_port := 554 }
      typical_file _ (by decide) rfl).1⟩

/-! ## The branch of `Stream="` -/

/-- A NUL byte in the list is the end of the string, as the end of the list
is. -/
theorem strncasecmp_NUL (v w b : List Nat) (n : Nat) (hv : NUL ∉ v) :
    strncasecmp (v ++ NUL :: w) b n = strncasecmp v b n := by
  induction v generalizing b n with
  | nil =>
    cases n with
    | zero => simp [strncasecmp]
    | succ n => simp [strncasecmp, deref]
  | cons x v ih =>
    have hv' : NUL ∉ v := fun e => hv (by simp [e])
    cases n with
    | zero => simp [strncasecmp]
    | succ n =>
      simp only [strncasecmp, List.cons_append, deref, List.headD_cons, List.tail_cons]
      rw [ih b.tail n hv']

theorem strdup_NUL (v w : List Nat) (hv : NUL ∉ v) : strdup (v ++ NUL :: w) = v := by
  induction v with
  | nil => simp [strdup]
  | cons x v ih =>
    have hx : x ≠ NUL := fun e => hv (by simp [e])
    have hv' : NUL ∉ v := fun e => hv (by simp [e])
    simp [strdup, hx, ih hv']

/-- The closing quote is found at the end of a value without quote. -/
theorem strrchr_closing (v : List Nat) (hn : NUL ∉ v) (hq : 34 ∉ v) :
    strrchr (v ++ [34]) 34 = some v.length := by
  induction v with
  | nil => simp [strrchr, NUL]
  | cons x v ih =>
    have hx : x ≠ NUL := fun e => hn (by simp [e])
    have hn' : NUL ∉ v := fun e => hn (by simp [e])
    have hq' : 34 ∉ v := fun e => hq (by simp [e])
    simp [strrchr, hx, ih hn' hq']

theorem set_closing (v : List Nat) (c : Nat) : (v ++ [34]).set v.length c = v ++ [c] := by
  induction v with
  | nil => rfl
  | cons x v ih => simp [List.set, ih]

/-- The branch of `Stream="` when `strrchr` finds a quote at offset `i`. -/
theorem ParseLine_Stream (H : host_t) (p_sys : demux_sys_t) (l : List Nat) (i : Nat)
    (h : at_key (lit "Stream=\"") l = true)
    (hi : strrchr ((l.dropWhile is_bol_blank).drop (lit "Stream=\"").length) 34 = some i) :
    ParseLine H p_sys l = some (H.VLC_SUCCESS, { p_sys with
      psz_uri := some (strdup
        (if strncasecmp (((l.dropWhile is_bol_blank).drop (lit "Stream=\"").length).set i NUL)
            (lit "xdma://") (lit "xdma://").length = 0
          then poke_rtsp (((l.dropWhile is_bol_blank).drop (lit "Stream=\"").length).set i NUL)
          else ((l.dropWhile is_bol_blank).drop (lit "Stream=\"").length).set i NUL)) }) := by
  have e1 := at_key_exclusive _ (lit "rtsp://") l (by decide) (by decide) (by decide) h
  rw [at_key_false_iff] at e1
  rw [at_key_iff] at h
  simp only [ParseLine, sizeof_sub_one, e1, h, hi, if_false, if_true]

theorem rewrite_spec_length (v : List Nat) : (rewrite_spec v).length = v.length := by
  unfold rewrite_spec
  split
  · next h =>
    have hl := congrArg List.length h
    have e7 : (lit "xdma://").length = 7 := by decide
    have e4 : (lit "rtsp").length = 4 := by decide
    simp only [List.length_map, List.length_take, e7] at hl
    simp only [List.length_append, List.length_drop, e4]
    omega
  · rfl

theorem rewrite_spec_drop (v : List Nat) : (rewrite_spec v).drop 4 = v.drop 4 := by
  unfold rewrite_spec
  split
  · exact List.drop_left' (by decide)
  · rfl

/-- Claim C3: for a value `v` without double quote and without NUL, `ParseLine`
on the line `Stream="v"` stores `v` with its first four bytes replaced by
`rtsp` when `v` begins, up to case, with `xdma://`, and `v` itself otherwise;
what is stored is as long as `v` and agrees with it from byte 4 on. -/
theorem C3_Stream_value_rewritten (H : host_t) (p_sys : demux_sys_t) (v : List Nat)
    (hq : 34 ∉ v) (hn : NUL ∉ v) :
    ParseLine H p_sys (lit "Stream=\"" ++ v ++ lit "\"")
        = some (H.VLC_SUCCESS, { p_sys with psz_uri := some (rewrite_spec v) })
    ∧ (rewrite_spec v).length = v.length
    ∧ (rewrite_spec v).drop 4 = v.drop 4 := by
  refine ⟨?_, rewrite_spec_length v, rewrite_spec_drop v⟩
  have hline : lit "Stream=\"" ++ v ++ lit "\"" = lit "Stream=\"" ++ (v ++ [34]) := by
    rw [List.append_assoc]; rfl
  have hval := value_of_append (lit "Stream=\"") (v ++ [34]) (by decide) (by decide)
  have hkey : at_key (lit "Stream=\"") (lit "Stream=\"" ++ (v ++ [34])) = true :=
    at_key_append _ _ (by decide) (by decide)
  have hr : strrchr (((lit "Stream=\"" ++ (v ++ [34])).dropWhile is_bol_blank).drop
      (lit "Stream=\"").length) 34 = some v.length := by
    rw [hval]; exact strrchr_closing v hn hq
  rw [hline, ParseLine_Stream H p_sys _ v.length hkey hr, hval, set_closing,
    strncasecmp_NUL v [] _ _ hn]
  have hiff := strncasecmp_eq_zero_iff v (lit "xdma://") (lit "xdma://").length (by decide)
    (Nat.le_refl _)
  have e7 : ((lit "xdma://").take 7).map tolower = lit "xdma://" := by decide
  have e7' : (lit "xdma://").length = 7 := by decide
  rw [e7', e7] at hiff
  rw [e7']
  unfold rewrite_spec
  by_cases hx : (v.take 7).map tolower = lit "xdma://"
  · rw [if_pos hx, if_pos (hiff.2 hx)]
    match v, hn, hx with
    | c0 :: c1 :: c2 :: c3 :: rest, hn, _ =>
      have hrest : NUL ∉ rest := fun e => hn (by simp [e])
      have hp : poke_rtsp (c0 :: c1 :: c2 :: c3 :: rest ++ [NUL])
          = lit "rtsp" ++ (rest ++ NUL :: []) := by
        simp [poke_rtsp, List.set]; rfl
      rw [hp]
      have hnul : NUL ∉ lit "rtsp" ++ rest := by
        have : NUL ∉ lit "rtsp" := by decide
        simp only [List.mem_append, not_or]; exact ⟨this, hrest⟩
      rw [← List.append_assoc, strdup_NUL _ [] hnul]
      rfl
    | [], _, hx => exact absurd hx (by decide)
    | [_], _, hx => exact absurd (congrArg List.length hx) (by simp [e7'])
    | [_, _], _, hx => exact absurd (congrArg List.length hx) (by simp [e7'])
    | [_, _, _], _, hx => exact absurd (congrArg List.length hx) (by simp [e7'])
  · rw [if_neg hx, if_neg (fun e => hx (hiff.1 e)), strdup_NUL v [] hn]

/-- Claim C3 at the two lines of the spec: `Stream="xdma://host/path"` and
`Stream="rtsp://host/path"` both store `rtsp://host/path`. -/
theorem C3_Stream_value_rewritten_witness :
    ParseLine H0 Activate_sys (lit "Stream=\"xdma://host/path\"")
        = some (0, { Activate_sys with psz_uri := some (lit "rtsp://host/path") })
    ∧ ParseLine H0 Activate_sys (lit "Stream=\"rtsp://host/path\"")
        = some (0, { Activate_sys with psz_uri := some (lit "rtsp://host/path") }) :=
  ⟨(C3_Stream_value_rewritten H0 Activate_sys (lit "xdma://host/path") (by decide)
      (by decide)).1,
   (C3_Stream_value_rewritten H0 Activate_sys (lit "rtsp://host/path") (by decide)
      (by decide)).1⟩

/-! ## The sniffer -/

theorem marker_length : sizeof (lit "sgiNameServerHost=") - 1 = 18 := by decide

/-- The test of `Activate` at a pointer, in terms of the bytes it reads. -/
theorem marker_test_iff (p : List Nat) :
    strncasecmp p (lit "sgiNameServerHost=") 18 = 0 ↔
      (p.take 18).map tolower = (lit "sgiNameServerHost=").map tolower := by
  rw [strncasecmp_eq_zero_iff p _ 18 (by decide) (by decide)]
  have : (lit "sgiNameServerHost=").take 18 = lit "sgiNameServerHost=" := by decide
  rw [this]

/-- The scan loop stops at an offset of at most `i_size`. -/
theorem Activate_loop_drop (i_size : Nat) (p_peek : List Nat) :
    ∃ j, j ≤ i_size ∧ Activate_loop i_size p_peek = p_peek.drop j := by
  induction i_size generalizing p_peek with
  | zero => exact ⟨0, Nat.le_refl _, rfl⟩
  | succ n ih =>
    simp only [Activate_loop]
    split
    · obtain ⟨j, hj, e⟩ := ih p_peek.tail
      refine ⟨j + 1, by omega, ?_⟩
      rw [e, List.drop_tail]
    · exact ⟨0, by omega, rfl⟩

/-- The scan loop stops at the marker when there is one at an offset of at
most `i_size`. -/
theorem Activate_loop_finds (i_size k : Nat) (p_peek : List Nat) (hk : k ≤ i_size)
    (hm : strncasecmp (p_peek.drop k) (lit "sgiNameServerHost=") 18 = 0) :
    strncasecmp (Activate_loop i_size p_peek) (lit "sgiNameServerHost=") 18 = 0 := by
  induction i_size generalizing p_peek k with
  | zero =>
    have : k = 0 := by omega
    subst this
    simpa [Activate_loop] using hm
  | succ n ih =>
    simp only [Activate_loop, marker_length]
    split
    · next hne =>
      cases k with
      | zero => exact absurd (by simpa using hm) hne
      | succ k =>
        apply ih k p_peek.tail (by omega)
        rw [List.drop_tail]; exact hm
    · next he => exact not_not.1 he

/-- The sniffer accepts when the window is longer than the marker and holds
the marker at some offset. -/
theorem Activate_accepts (H : host_t) (s : List Nat) (k : Nat)
    (hlen : 18 < (stream_Peek s MAX_LINE).length)
    (hk : marker_at (stream_Peek s MAX_LINE) k) : (Activate H s).1 = H.VLC_SUCCESS := by
  obtain ⟨hk1, hk2⟩ := hk
  have hpos : ((stream_Peek s MAX_LINE).length : Int) - ((18 : Nat) : Int) > 0 := by omega
  have hfind := Activate_loop_finds
    (((stream_Peek s MAX_LINE).length : Int) - ((18 : Nat) : Int)).toNat k
    (stream_Peek s MAX_LINE) (by omega) ((marker_test_iff _).2 hk2)
  simp only [Activate, marker_length, hpos, if_true, hfind]

/-- Claim C4, at the input where the code departs from it: a stream that is
exactly the 18 bytes `sgiNameServerHost=` holds the marker at offset 0 of its
window, and `Activate` returns `VLC_EGENERIC`. -/
theorem C4_marker_only_rejected (H : host_t) :
    marker_at (stream_Peek (lit "sgiNameServerHost=") MAX_LINE) 0
    ∧ (Activate H (lit "sgiNameServerHost=")).1 = H.VLC_EGENERIC := by
  constructor
  · exact ⟨by decide, by decide⟩
  · rfl

/-- Claim C5: when the marker lies at no offset of the peek window, `Activate`
returns `VLC_EGENERIC`; and, `VLC_SUCCESS` and `VLC_EGENERIC` being different
codes, when `Activate` returns `VLC_SUCCESS` the marker lies at some offset
`k` of the window, within its length. -/
theorem C5_no_marker_rejected (H : host_t) (s : List Nat) :
    ((¬ ∃ k, marker_at (stream_Peek s MAX_LINE) k) → (Activate H s).1 = H.VLC_EGENERIC)
    ∧ (H.VLC_SUCCESS ≠ H.VLC_EGENERIC → (Activate H s).1 = H.VLC_SUCCESS →
        ∃ k, marker_at (stream_Peek s MAX_LINE) k) := by
  have key : (Activate H s).1 = H.VLC_EGENERIC ∨ ∃ k, marker_at (stream_Peek s MAX_LINE) k := by
    simp only [Activate, marker_length]
    split
    · next hpos =>
      split
      · next hz =>
        obtain ⟨j, hj, e⟩ := Activate_loop_drop
          (((stream_Peek s MAX_LINE).length : Int) - ((18 : Nat) : Int)).toNat
          (stream_Peek s MAX_LINE)
        rw [e] at hz
        exact Or.inr ⟨j, by omega, (marker_test_iff _).1 hz⟩
      · exact Or.inl rfl
    · exact Or.inl rfl
  constructor
  · intro h
    rcases key with hk | hk
    · exact hk
    · exact absurd hk h
  · intro hne hs
    rcases key with hk | hk
    · exact absurd (hs.symm.trans hk) hne
    · exact hk

/-- Claim C5 at two streams: 31 bytes with the name of the key and no `=` are
rejected; the first line of the typical file is accepted and holds the
marker. -/
theorem C5_no_marker_rejected_witness :
    (Activate H0 (lit "sgiNameServerHost host.name.tld")).1 = -666
    ∧ ∃ k, marker_at (stream_Peek (lit "sgiNameServerHost=host.name.tld") MAX_LINE) k :=
  ⟨(C5_no_marker_rejected H0 (lit "sgiNameServerHost host.name.tld")).1 (by
      rintro ⟨k, hk, hm⟩
      have hk' : k < 14 := by
        have : (stream_Peek (lit "sgiNameServerHost host.name.tld") MAX_LINE).length = 31 := by
          decide
        omega
      have key : ∀ j < 14,
          ¬ (((stream_Peek (lit "sgiNameServerHost host.name.tld") MAX_LINE).drop j).take
            18).map tolower = (lit "sgiNameServerHost=").map tolower := by decide
      exact key k hk' hm),
   (C5_no_marker_rejected H0 (lit "sgiNameServerHost=host.name.tld")).2 (by decide)
      (by decide)⟩

/-! ## The title -/

/-- The field `psz_name` after a line: the value of the line when it is a
`sgiShowingName=` line, the field as it was otherwise. -/
theorem ParseLine_psz_name (H : host_t) (p_sys : demux_sys_t) (l : List Nat)
    (r : Int × demux_sys_t) (hr : ParseLine H p_sys l = some r) :
    r.2.psz_name = if at_key (lit "sgiShowingName=") l = true
      then some (key_value (lit "sgiShowingName=") l) else p_sys.psz_name := by
  by_cases hk : at_key (lit "sgiShowingName=") l = true
  · rw [ParseLine_name H p_sys l hk] at hr
    cases hr
    simp only [hk, if_true, key_value]
  · rw [if_neg hk]
    rw [Bool.not_eq_true, at_key_false_iff] at hk
    simp only [ParseLine, sizeof_sub_one, hk, if_false] at hr
    split_ifs at hr
    all_goals first
      | (cases hr; rfl)
      | (split at hr
         · exact Option.noConfusion hr
         · cases hr; rfl)

/-- The field `psz_name` after the read loop: the value of the last
`sgiShowingName=` line, the field as it was when there is no such line. -/
theorem Demux_loop_psz_name (H : host_t) (s : List (List Nat)) :
    ∀ p_sys p_end : demux_sys_t, Demux_loop H p_sys s = some p_end →
    p_end.psz_name =
      match (s.filter (at_key (lit "sgiShowingName="))).getLast? with
      | some l => some (key_value (lit "sgiShowingName=") l)
      | none => p_sys.psz_name := by
  induction s with
  | nil => intro p_sys p_end h; simp only [Demux_loop] at h; cases h; rfl
  | cons l s ih =>
    intro p_sys p_end h
    simp only [Demux_loop] at h
    cases hr : ParseLine H p_sys l with
    | none => rw [hr] at h; exact Option.noConfusion h
    | some r =>
      rw [hr] at h
      have h1 := ih r.2 p_end h
      have h2 := ParseLine_psz_name H p_sys l r hr
      rw [h1, h2]
      by_cases hk : at_key (lit "sgiShowingName=") l = true
      · simp only [List.filter_cons, hk, if_true, List.getLast?_cons]
        cases (s.filter (at_key (lit "sgiShowingName="))).getLast? <;> rfl
      · simp only [List.filter_cons, hk, if_false]
        rfl

/-- The synthesis step leaves `psz_name` as it is. -/
theorem Demux_synth_psz_name (p_sys q : demux_sys_t) (h : Demux_synth p_sys = some q) :
    q.psz_name = p_sys.psz_name := by
  unfold Demux_synth at h
  split at h
  · cases h; rfl
  · split at h
    · simp only at h
      split_ifs at h <;> (cases h; rfl)
    · cases h; rfl

/-- Claim C9: when `Demux`, run on the session that `Activate` leaves, makes
its insertion call with a URI `u`, the title of the call is the value of the
last line matching `sgiShowingName=` when there is such a line, and `u` itself
when there is none. -/
theorem C9_title (H : host_t) (pl : playlist_t) (s : List (List Nat)) (u : List Nat)
    (hu : delivered (Demux H Activate_sys (some pl) s) = some [some u]) :
    titles (Demux H Activate_sys (some pl) s) = some [some (
      match (s.filter (at_key (lit "sgiShowingName="))).getLast? with
      | some l => key_value (lit "sgiShowingName=") l
      | none => u)] := by
  simp only [delivered, titles, Demux] at hu ⊢
  cases hloop : Demux_loop H Activate_sys s with
  | none => simp only [hloop] at hu; exact Option.noConfusion hu
  | some p_end =>
    simp only [hloop] at hu ⊢
    cases hsyn : Demux_synth p_end with
    | none => simp only [hsyn] at hu; exact Option.noConfusion hu
    | some q =>
      simp only [hsyn] at hu ⊢
      have hname := Demux_loop_psz_name H s Activate_sys p_end hloop
      rw [← Demux_synth_psz_name p_end q hsyn] at hname
      simp only [Option.map_some', List.map_cons, List.map_nil, Option.some.injEq,
        List.cons.injEq, and_true] at hu ⊢
      rw [hname, hu]
      cases (s.filter (at_key (lit "sgiShowingName="))).getLast? <;> rfl

/-- Claim C9 at two files: with two `sgiShowingName=` lines the title is the
value of the second; without one it is the URI. -/
theorem C9_title_witness :
    titles (Demux H0 Activate_sys (some ⟨0⟩)
        [lit "sgiShowingName=First", lit "rtsp://host/a.mpg", lit "SGIshowingname=Second one "])
      = some [some (lit "Second one ")]
    ∧ titles (Demux H0 Activate_sys (some ⟨0⟩) [lit "rtsp://host/a.mpg"])
      = some [some (lit "rtsp://host/a.mpg")] :=
  ⟨C9_title H0 ⟨0⟩ _ (lit "rtsp://host/a.mpg") (by decide),
   C9_title H0 ⟨0⟩ _ (lit "rtsp://host/a.mpg") (by decide)⟩

/-! ## A file that resolves to no URI, and a missing playlist -/

/-- Claim C8, at an input where the code departs from it: on a file with a
server line and no location line the session ends without URI, and `Demux`
still returns `VLC_SUCCESS` after one call of `playlist_AddExt`, whose URI and
title are both NULL. -/
theorem C8_insertion_without_uri (H : host_t) (pl : playlist_t) :
    Demux H Activate_sys (some pl) [lit "sgiNameServerHost=h.example.com"]
      = some { ret := H.VLC_SUCCESS,
               p_sys := { Activate_sys with psz_server := some (lit "h.example.com") },
               s := [],
               b_autodeletion := some pl.i_index,
               added := [{ psz_uri := none, psz_name := none, i_mode := H.PLAYLIST_INSERT,
                           i_pos := pl.i_index + 1, i_duration := 0 }] } := by
  rfl

/-- Claim C10: without a playlist `Demux` returns `-1` with the session and the
stream as they were and no call of `playlist_AddExt`; and, the host's
`VLC_SUCCESS` not being `-1`, with a playlist it never returns `-1`. -/
theorem C10_missing_playlist (H : host_t) (p_sys : demux_sys_t) (s : List (List Nat))
    (hH : H.VLC_SUCCESS ≠ -1) :
    Demux H p_sys none s
      = some { ret := -1, p_sys := p_sys, s := s, b_autodeletion := none, added := [] }
    ∧ ∀ pl : playlist_t, (Demux H p_sys (some pl) s).map Demux_t.ret ≠ some (-1) := by
  refine ⟨rfl, ?_⟩
  intro pl
  simp only [Demux]
  cases Demux_loop H p_sys s with
  | none => exact fun h => Option.noConfusion h
  | some p_end =>
    cases hsyn : Demux_synth p_end with
    | none => simp only [hsyn]; exact fun h => Option.noConfusion h
    | some q =>
      simp only [hsyn, Option.map_some']
      exact fun h => hH (Option.some.inj h)

/-- Claim C10 at the typical file with the constants `H0`. -/
theorem C10_missing_playlist_witness :
    Demux H0 Activate_sys none typical_file
      = some { ret := -1, p_sys := Activate_sys, s := typical_file, b_autodeletion := none,
               added := [] }
    ∧ (Demux H0 Activate_sys (some ⟨0⟩) typical_file).map Demux_t.ret ≠ some (-1) :=
  ⟨(C10_missing_playlist H0 Activate_sys typical_file (by decide)).1,
   (C10_missing_playlist H0 Activate_sys typical_file (by decide)).2 ⟨0⟩⟩

/-! ## Printing and reading a port -/

theorem strtol_digits_cons_digit (d : Nat) (hd : d < 10) (rest : List Nat) (a : Nat) :
    strtol_digits 10 ((48 + d) :: rest) a = strtol_digits 10 rest (a * 10 + d) := by
  have h1 : digit_val (48 + d) = some d := by
    unfold digit_val
    rw [if_pos (by omega)]
    congr 1
    omega
  simp only [strtol_digits, h1, hd, if_true]

theorem utoa_aux_numeral (fuel : Nat) :
    ∀ n acc, n < fuel → ∃ ds, utoa_aux fuel n acc = ds ++ acc ∧ is_numeral ds n := by
  induction fuel with
  | zero => intro n acc h; omega
  | succ fuel ih =>
    intro n acc h
    by_cases h0 : n / 10 = 0
    · have hn : n < 10 := by omega
      have hmod : n % 10 = n := by omega
      refine ⟨[48 + n], by simp [utoa_aux, h0, hmod], by simp, ?_, ?_, ?_, ?_⟩
      · intro x hx
        simp only [List.mem_singleton] at hx
        omega
      · intro h1
        simp only [List.headD_cons]
        omega
      · intro a rest
        simp only [List.singleton_append, List.length_singleton, Nat.pow_one]
        exact strtol_digits_cons_digit n hn rest a
      · intro k hk _
        simpa using hk
    · obtain ⟨ds, e, hne, hdig, hhead, hread, hlen⟩ :=
        ih (n / 10) ((48 + n % 10) :: acc) (by omega)
      refine ⟨ds ++ [48 + n % 10], ?_, by simp, ?_, ?_, ?_, ?_⟩
      · simp only [utoa_aux, h0, if_false, e, List.append_assoc, List.singleton_append]
      · intro x hx
        rcases List.mem_append.1 hx with hx | hx
        · exact hdig x hx
        · simp only [List.mem_singleton] at hx
          omega
      · intro _
        cases ds with
        | nil => exact absurd rfl hne
        | cons d ds =>
          simp only [List.cons_append, List.headD_cons] at hhead ⊢
          exact hhead (by omega)
      · intro a rest
        rw [List.append_assoc, hread, List.singleton_append,
          strtol_digits_cons_digit (n % 10) (Nat.mod_lt _ (by omega)) rest]
        congr 1
        rw [List.length_append, List.length_singleton, Nat.pow_succ]
        have := Nat.div_add_mod n 10
        nlinarith [this]
      · intro k hk hnk
        obtain ⟨j, rfl⟩ : ∃ j, k = j + 1 := ⟨k - 1, by omega⟩
        have hj : 1 ≤ j := by
          rcases Nat.eq_zero_or_pos j with hj0 | hj0
          · subst hj0
            simp at hnk
            omega
          · exact hj0
        have hq : n / 10 < 10 ^ j := by
          rw [Nat.pow_succ] at hnk
          omega
        have := hlen j hj hq
        simp only [List.length_append, List.length_singleton]
        omega

/-- The text of `utoa` is a decimal numeral of its argument. -/
theorem utoa_numeral (n : Nat) : is_numeral (utoa n) n := by
  obtain ⟨ds, e, h⟩ := utoa_aux_numeral (n + 1) n [] (by omega)
  rw [List.append_nil] at e
  rw [utoa, e]
  exact h

/-- Reading back the decimal numeral of a positive number within the range of
`long`. -/
theorem strtol_utoa (LONG_MAX : Int) (n : Nat) (h1 : 1 ≤ n) (h2 : (n : Int) ≤ LONG_MAX) :
    strtol LONG_MAX (utoa n) = n := by
  obtain ⟨hne, hdig, hhead, hread, _⟩ := utoa_numeral n
  have hr := hread 0 []
  rw [List.append_nil] at hr
  cases hu : utoa n with
  | nil => exact absurd hu hne
  | cons d ds =>
    rw [hu] at hdig hhead hr
    have hd1 : 49 ≤ d := by simpa using hhead h1
    have hd2 : d ≤ 57 := (hdig d (List.mem_cons_self _ _)).2
    have hsp : isspace d = false := by
      simp only [isspace, Bool.or_eq_false_iff, Bool.and_eq_false_iff, decide_eq_false_iff_not]
      omega
    have hdrop : (d :: ds).dropWhile isspace = d :: ds := by
      simp [List.dropWhile, hsp]
    have h45 : ¬ d = 45 := by omega
    have h43 : ¬ d = 43 := by omega
    have h48 : ¬ d = 48 := by omega
    simp only [strtol, hdrop, deref, List.headD_cons, h45, h43, if_false, strtol_magnitude, h48,
      hr, strtol_digits, Nat.zero_mul, Nat.zero_add]
    exact min_eq_left h2

theorem int_of_long_id (x : Int) (h0 : 0 ≤ x) (h1 : x < 2147483648) : int_of_long x = x := by
  unfold int_of_long
  norm_num
  omega

/-- The text of a positive port below `10 ^ 9`: digits only, nine at most. -/
theorem fmt_i_pos (q : Int) (h0 : 0 < q) (h1 : q < 1000000000) :
    fmt_i q = utoa q.toNat ∧ NUL ∉ fmt_i q ∧ (fmt_i q).length ≤ 9 := by
  have e : fmt_i q = utoa q.toNat := by
    unfold fmt_i
    rw [if_neg (by omega)]
  obtain ⟨_, hdig, _, _, hlen⟩ := utoa_numeral q.toNat
  refine ⟨e, ?_, ?_⟩
  · rw [e]
    intro hmem
    have := (hdig NUL hmem).1
    simp [NUL] at this
  · rw [e]
    exact hlen 9 (by omega) (by omega)

/-- The port field after the line `sgiRtspPort=` followed by the decimal
numeral of `n`, for `n` from 1 to `2^31 - 1`, on a host whose `long` holds
every such number: it is `n`. -/
theorem ParseLine_port_utoa (H : host_t) (hH : 2147483647 ≤ H.LONG_MAX) (p_sys : demux_sys_t)
    (n : Nat) (h1 : 1 ≤ n) (h2 : n < 2147483648) :
    ParseLine H p_sys (lit "sgiRtspPort=" ++ utoa n)
      = some (H.VLC_SUCCESS, { p_sys with i_port := n }) := by
  rw [ParseLine_port H p_sys _ (at_key_append _ _ (by decide) (by decide)),
    value_of_append (lit "sgiRtspPort=") (utoa n) (by decide) (by decide),
    strtol_utoa H.LONG_MAX n h1 (by omega), int_of_long_id n (by omega) (by omega)]

/-- The synthesis step on a session without URI whose server and location are
set, when the text of the port `q` is short enough for `temp`. -/
theorem Demux_synth_of_port (p_sys : demux_sys_t) (h m : List Nat) (q : Int)
    (hu : p_sys.psz_uri = none) (hs : p_sys.psz_server = some h)
    (hl : p_sys.psz_location = some m)
    (hq : (if p_sys.i_port > 0 then p_sys.i_port else 554) = q)
    (hp : NUL ∉ fmt_i q) (hlen : (fmt_i q).length ≤ 9) :
    Demux_synth p_sys = some { p_sys with
      psz_uri := some (lit "rtsp/live://" ++ strdup h ++ lit ":" ++ fmt_i q ++ strdup m) } := by
  have hsize : (lit "rtsp/live://" ++ strdup h ++ lit ":" ++ fmt_i q ++ strdup m).length + 1
      ≤ sizeof (lit "rtsp/live://" ++ lit ":" ++ lit "123456789") + strlen h + strlen m := by
    have e1 : (lit "rtsp/live://").length = 12 := by decide
    have e2 : (lit ":").length = 1 := by decide
    have e3 : sizeof (lit "rtsp/live://" ++ lit ":" ++ lit "123456789") = 23 := by decide
    simp only [List.length_append, e1, e2, e3, strlen_strdup]
    omega
  have hnul : NUL ∉ lit "rtsp/live://" ++ strdup h ++ lit ":" ++ fmt_i q ++ strdup m := by
    have e1 : NUL ∉ lit "rtsp/live://" := by decide
    have e2 : NUL ∉ lit ":" := by decide
    simp only [List.mem_append, not_or]
    exact ⟨⟨⟨⟨e1, strdup_no_NUL h⟩, e2⟩, hp⟩, strdup_no_NUL m⟩
  simp only [Demux_synth, hu, hs, hl, hq, hsize, if_true, strdup_of_no_NUL hnul]

/-- Claim C7, as amended: for a session that ends the read loop without URI and
with server and location set, the port in the URI of the insertion call is the
decimal text of `i_port` when `i_port` is positive and below `10 ^ 9`, and
`554` when `i_port` is zero or negative. -/
theorem C7_port_written (H : host_t) (pl : playlist_t) (p_sys p_end : demux_sys_t)
    (s : List (List Nat)) (h m : List Nat) (hloop : Demux_loop H p_sys s = some p_end)
    (hu : p_end.psz_uri = none) (hs : p_end.psz_server = some h)
    (hl : p_end.psz_location = some m) :
    (0 < p_end.i_port → p_end.i_port < 1000000000 →
      delivered (Demux H p_sys (some pl) s)
        = some [some (lit "rtsp/live://" ++ strdup h ++ lit ":" ++ fmt_i p_end.i_port
            ++ strdup m)])
    ∧ (p_end.i_port ≤ 0 →
      delivered (Demux H p_sys (some pl) s)
        = some [some (lit "rtsp/live://" ++ strdup h ++ lit ":554" ++ strdup m)]) := by
  constructor
  · intro h0 h1
    obtain ⟨_, hn, hlen⟩ := fmt_i_pos p_end.i_port h0 h1
    have hsyn := Demux_synth_of_port p_end h m p_end.i_port hu hs hl (if_pos h0) hn hlen
    simp only [delivered, Demux, hloop, hsyn, Option.map_some', List.map_cons, List.map_nil]
  · intro h0
    have hsyn := Demux_synth_of_port p_end h m 554 hu hs hl (if_neg (by omega)) (by decide)
      (by decide)
    have ecat : lit "rtsp/live://" ++ strdup h ++ lit ":" ++ fmt_i 554 ++ strdup m
        = lit "rtsp/live://" ++ strdup h ++ lit ":554" ++ strdup m := by
      rw [fmt_i_554]
      have : lit ":554" = lit ":" ++ lit "554" := by decide
      rw [this]
      simp only [List.append_assoc]
    rw [ecat] at hsyn
    simp only [delivered, Demux, hloop, hsyn, Option.map_some', List.map_cons, List.map_nil]

/-- Claim C7 as amended, at the file of the spec with `sgiRtspPort=8554`: the
URI is `rtsp/live://h.example.com:8554/demo/a.mpg`. -/
theorem C7_port_written_witness :
    delivered (Demux H0 Activate_sys (some ⟨0⟩)
        [lit "sgiNameServerHost=h.example.com", lit "sgiMovieName=/demo/a.mpg",
         lit "sgiRtspPort=8554"])
      = some [some (lit "rtsp/live://h.example.com:8554/demo/a.mpg")] :=
  (C7_port_written H0 ⟨0⟩ Activate_sys
    { Activate_sys with psz_server := some (lit "h.example.com"),
                        psz_location := some (lit "/demo/a.mpg"), i_port := 8554 }
    _ (lit "h.example.com") (lit "/demo/a.mpg") (by decide) rfl rfl rfl).1
    (by decide) (by decide)

/-- Claim C7 as stated fails at the file of the spec with `sgiRtspPort=-1`: the
session ends with `i_port = -1`, whose decimal text is `-1`, and the URI of the
insertion call carries the port `554`. -/
theorem C7_negative_port_counterexample :
    (Demux_loop H0 Activate_sys
        [lit "sgiNameServerHost=h.example.com", lit "sgiMovieName=/demo/a.mpg",
         lit "sgiRtspPort=-1"]).map demux_sys_t.i_port = some (-1)
    ∧ fmt_i (-1) = lit "-1"
    ∧ delivered (Demux H0 Activate_sys (some ⟨0⟩)
        [lit "sgiNameServerHost=h.example.com", lit "sgiMovieName=/demo/a.mpg",
         lit "sgiRtspPort=-1"])
      = some [some (lit "rtsp/live://h.example.com:554/demo/a.mpg")]
    ∧ delivered (Demux H0 Activate_sys (some ⟨0⟩)
        [lit "sgiNameServerHost=h.example.com", lit "sgiMovieName=/demo/a.mpg",
         lit "sgiRtspPort=-1"])
      ≠ some [some (lit "rtsp/live://h.example.com:-1/demo/a.mpg")] := by
  decide

/-- Claim C6, at an input where the code departs from it: with the port line
`sgiRtspPort=1000000000` the read loop ends with `i_port = 1000000000`, the
text that `sprintf` writes is `rtsp/live://h.example.com:1000000000/demo/a.mpg`
with its NUL, 48 bytes, the block `temp` has 47, and `Demux` does not
complete. -/
theorem C6_port_of_ten_digits :
    (Demux_loop H0 Activate_sys
        [lit "sgiNameServerHost=h.example.com", lit "sgiMovieName=/demo/a.mpg",
         lit "sgiRtspPort=1000000000"]).map demux_sys_t.i_port = some 1000000000
    ∧ (lit "rtsp/live://" ++ strdup (lit "h.example.com") ++ lit ":" ++ fmt_i 1000000000
        ++ strdup (lit "/demo/a.mpg")).length + 1 = 48
    ∧ sizeof (lit "rtsp/live://" ++ lit ":" ++ lit "123456789")
        + strlen (lit "h.example.com") + strlen (lit "/demo/a.mpg") = 47
    ∧ Demux H0 Activate_sys (some ⟨0⟩)
        [lit "sgiNameServerHost=h.example.com", lit "sgiMovieName=/demo/a.mpg",
         lit "sgiRtspPort=1000000000"] = none := by
  decide

/-- The read loop on lines that are the server line, the location line, the
port line with the numeral of `n`, or lines matching no literal: only the
three fields are written. -/
theorem Demux_loop_server_location_port (H : host_t) (hH : 2147483647 ≤ H.LONG_MAX)
    (h m : List Nat) (n : Nat) (hh : NUL ∉ h) (hm : NUL ∉ m) (h1 : 1 ≤ n)
    (h2 : n < 2147483648) (s : List (List Nat)) :
    ∀ p_sys : demux_sys_t,
    (∀ l ∈ s, no_key l = true ∨ l = lit "sgiNameServerHost=" ++ h
      ∨ l = lit "sgiMovieName=" ++ m ∨ l = lit "sgiRtspPort=" ++ utoa n) →
    Demux_loop H p_sys s = some { p_sys with
      psz_server := if lit "sgiNameServerHost=" ++ h ∈ s then some h else p_sys.psz_server,
      psz_location := if lit "sgiMovieName=" ++ m ∈ s then some m else p_sys.psz_location,
      i_port := if lit "sgiRtspPort=" ++ utoa n ∈ s then (n : Int) else p_sys.i_port } := by
  have kA : at_key (lit "sgiNameServerHost=") (lit "sgiNameServerHost=" ++ h) = true :=
    at_key_append _ _ (by decide) (by decide)
  have kB : at_key (lit "sgiMovieName=") (lit "sgiMovieName=" ++ m) = true :=
    at_key_append _ _ (by decide) (by decide)
  have kC : at_key (lit "sgiRtspPort=") (lit "sgiRtspPort=" ++ utoa n) = true :=
    at_key_append _ _ (by decide) (by decide)
  have nA : no_key (lit "sgiNameServerHost=" ++ h) = false :=
    no_key_append_false _ _ (by decide) (by decide) (by decide)
  have nB : no_key (lit "sgiMovieName=" ++ m) = false :=
    no_key_append_false _ _ (by decide) (by decide) (by decide)
  have nC : no_key (lit "sgiRtspPort=" ++ utoa n) = false :=
    no_key_append_false _ _ (by decide) (by decide) (by decide)
  have hAB : lit "sgiNameServerHost=" ++ h ≠ lit "sgiMovieName=" ++ m := by
    intro e
    have := at_key_exclusive _ (lit "sgiMovieName=") _ (by decide) (by decide) (by decide) kA
    rw [e, kB] at this
    exact Bool.noConfusion this
  have hAC : lit "sgiNameServerHost=" ++ h ≠ lit "sgiRtspPort=" ++ utoa n := by
    intro e
    have := at_key_exclusive _ (lit "sgiRtspPort=") _ (by decide) (by decide) (by decide) kA
    rw [e, kC] at this
    exact Bool.noConfusion this
  have hBC : lit "sgiMovieName=" ++ m ≠ lit "sgiRtspPort=" ++ utoa n := by
    intro e
    have := at_key_exclusive _ (lit "sgiRtspPort=") _ (by decide) (by decide) (by decide) kB
    rw [e, kC] at this
    exact Bool.noConfusion this
  induction s with
  | nil => intro p_sys _; simp [Demux_loop]
  | cons l s ih =>
    intro p_sys hs
    have hs' : ∀ l ∈ s, no_key l = true ∨ l = lit "sgiNameServerHost=" ++ h
        ∨ l = lit "sgiMovieName=" ++ m ∨ l = lit "sgiRtspPort=" ++ utoa n :=
      fun x hx => hs x (List.mem_cons_of_mem _ hx)
    rcases hs l (List.mem_cons_self _ _) with hl | hl | hl | hl
    · have d1 : lit "sgiNameServerHost=" ++ h ≠ l := fun e => by
        rw [← e, nA] at hl; exact Bool.noConfusion hl
      have d2 : lit "sgiMovieName=" ++ m ≠ l := fun e => by
        rw [← e, nB] at hl; exact Bool.noConfusion hl
      have d3 : lit "sgiRtspPort=" ++ utoa n ≠ l := fun e => by
        rw [← e, nC] at hl; exact Bool.noConfusion hl
      simp only [Demux_loop, ParseLine_no_key H p_sys l hl, ih p_sys hs', List.mem_cons, d1, d2,
        d3, false_or]
    · subst hl
      simp only [Demux_loop, ParseLine_server H p_sys _ kA,
        value_of_append (lit "sgiNameServerHost=") h (by decide) (by decide),
        strdup_of_no_NUL hh, ih _ hs', List.mem_cons, true_or, if_true, hAB.symm, hAC.symm,
        false_or, ite_self]
    · subst hl
      simp only [Demux_loop, ParseLine_location H p_sys _ kB,
        value_of_append (lit "sgiMovieName=") m (by decide) (by decide), strdup_of_no_NUL hm,
        ih _ hs', List.mem_cons, true_or, if_true, hAB, hBC.symm, false_or, ite_self]
    · subst hl
      simp only [Demux_loop, ParseLine_port_utoa H hH p_sys n h1 h2, ih _ hs', List.mem_cons,
        true_or, if_true, hAC, hBC, false_or, ite_self]

/-- The part of claim C6 that the code keeps: for a port `n` from 1 to
`10 ^ 9 - 1` written as its decimal numeral, on a host whose `long` has at
least 32 bits, the three lines in any order among lines matching no literal
give the URI with the same digits. -/
theorem Demux_port_roundtrip (H : host_t) (hH : 2147483647 ≤ H.LONG_MAX) (pl : playlist_t)
    (h m : List Nat) (n : Nat) (s : List (List Nat)) (hh : NUL ∉ h) (hm : NUL ∉ m)
    (h1 : 1 ≤ n) (h2 : n < 1000000000)
    (hs : (s.filter fun l => !no_key l).Perm
      [lit "sgiNameServerHost=" ++ h, lit "sgiMovieName=" ++ m, lit "sgiRtspPort=" ++ utoa n]) :
    delivered (Demux H Activate_sys (some pl) s)
      = some [some (lit "rtsp/live://" ++ h ++ lit ":" ++ utoa n ++ m)] := by
  have hall : ∀ l ∈ s, no_key l = true ∨ l = lit "sgiNameServerHost=" ++ h
      ∨ l = lit "sgiMovieName=" ++ m ∨ l = lit "sgiRtspPort=" ++ utoa n := by
    intro l hl
    cases hn : no_key l with
    | true => exact Or.inl rfl
    | false =>
      have : l ∈ s.filter fun l => !no_key l := List.mem_filter.2 ⟨hl, by simp [hn]⟩
      have := hs.mem_iff.1 this
      simpa using this
  have hA : lit "sgiNameServerHost=" ++ h ∈ s :=
    (List.mem_filter.1 (hs.mem_iff.2 (by simp))).1
  have hB : lit "sgiMovieName=" ++ m ∈ s :=
    (List.mem_filter.1 (hs.mem_iff.2 (by simp))).1
  have hC : lit "sgiRtspPort=" ++ utoa n ∈ s :=
    (List.mem_filter.1 (hs.mem_iff.2 (by simp))).1
  have hloop := Demux_loop_server_location_port H hH h m n hh hm h1 (by omega) s Activate_sys hall
  simp only [hA, hB, hC, if_true] at hloop
  obtain ⟨e, hn, hlen⟩ := fmt_i_pos (n : Int) (by omega) (by omega)
  have hsyn := Demux_synth_of_fields
    { Activate_sys with psz_server := some h, psz_location := some m, i_port := (n : Int) }
    h m (n : Int) hh hm rfl rfl rfl (if_pos (by show (0 : Int) < n; omega)) hn hlen
  rw [e, Int.toNat_ofNat] at hsyn
  simp only [delivered, Demux, hloop, hsyn, Option.map_some', List.map_cons, List.map_nil]

/-! ## The remaining branches of `ParseLine` -/

/-- The branch of `rtsp://`. -/
theorem ParseLine_rtsp (H : host_t) (p_sys : demux_sys_t) (l : List Nat)
    (h : at_key (lit "rtsp://") l = true) :
    ParseLine H p_sys l = some (H.VLC_SUCCESS, { p_sys with
      psz_uri := some (strdup (l.dropWhile is_bol_blank)) }) := by
  rw [at_key_iff] at h
  simp only [ParseLine, sizeof_sub_one, h, if_true]

/-- The branch of `Stream="` when `strrchr` finds no quote: the write through
NULL. -/
theorem ParseLine_Stream_none (H : host_t) (p_sys : demux_sys_t) (l : List Nat)
    (h : at_key (lit "Stream=\"") l = true)
    (hi : strrchr ((l.dropWhile is_bol_blank).drop (lit "Stream=\"").length) 34 = none) :
    ParseLine H p_sys l = none := by
  have e1 := at_key_exclusive _ (lit "rtsp://") l (by decide) (by decide) (by decide) h
  rw [at_key_false_iff] at e1
  rw [at_key_iff] at h
  simp only [ParseLine, sizeof_sub_one, e1, h, hi, if_false, if_true]

/-- The branch of `sgiUserAccount=`. -/
theorem ParseLine_user (H : host_t) (p_sys : demux_sys_t) (l : List Nat)
    (h : at_key (lit "sgiUserAccount=") l = true) :
    ParseLine H p_sys l = some (H.VLC_SUCCESS, { p_sys with
      psz_user := some (strdup ((l.dropWhile is_bol_blank).drop
        (lit "sgiUserAccount=").length)) }) := by
  have e1 := at_key_exclusive _ (lit "rtsp://") l (by decide) (by decide) (by decide) h
  have e2 := at_key_exclusive _ (lit "Stream=\"") l (by decide) (by decide) (by decide) h
  have e3 := at_key_exclusive _ (lit "sgiNameServerHost=") l (by decide) (by decide) (by decide) h
  have e4 := at_key_exclusive _ (lit "sgiMovieName=") l (by decide) (by decide) (by decide) h
  rw [at_key_false_iff] at e1 e2 e3 e4
  rw [at_key_iff] at h
  simp only [ParseLine, sizeof_sub_one, e1, e2, e3, e4, h, if_false, if_true]

/-- The branch of `sgiUserPassword=`. -/
theorem ParseLine_password (H : host_t) (p_sys : demux_sys_t) (l : List Nat)
    (h : at_key (lit "sgiUserPassword=") l = true) :
    ParseLine H p_sys l = some (H.VLC_SUCCESS, { p_sys with
      psz_password := some (strdup ((l.dropWhile is_bol_blank).drop
        (lit "sgiUserPassword=").length)) }) := by
  have e1 := at_key_exclusive _ (lit "rtsp://") l (by decide) (by decide) (by decide) h
  have e2 := at_key_exclusive _ (lit "Stream=\"") l (by decide) (by decide) (by decide) h
  have e3 := at_key_exclusive _ (lit "sgiNameServerHost=") l (by decide) (by decide) (by decide) h
  have e4 := at_key_exclusive _ (lit "sgiMovieName=") l (by decide) (by decide) (by decide) h
  have e5 := at_key_exclusive _ (lit "sgiUserAccount=") l (by decide) (by decide) (by decide) h
  rw [at_key_false_iff] at e1 e2 e3 e4 e5
  rw [at_key_iff] at h
  simp only [ParseLine, sizeof_sub_one, e1, e2, e3, e4, e5, h, if_false, if_true]

/-- The branch of `sgiDuration=`. -/
theorem ParseLine_duration (H : host_t) (p_sys : demux_sys_t) (l : List Nat)
    (h : at_key (lit "sgiDuration=") l = true) :
    ParseLine H p_sys l = some (H.VLC_SUCCESS, { p_sys with
      i_duration := strtol H.LONG_MAX ((l.dropWhile is_bol_blank).drop
        (lit "sgiDuration=").length) }) := by
  have e1 := at_key_exclusive _ (lit "rtsp://") l (by decide) (by decide) (by decide) h
  have e2 := at_key_exclusive _ (lit "Stream=\"") l (by decide) (by decide) (by decide) h
  have e3 := at_key_exclusive _ (lit "sgiNameServerHost=") l (by decide) (by decide) (by decide) h
  have e4 := at_key_exclusive _ (lit "sgiMovieName=") l (by decide) (by decide) (by decide) h
  have e5 := at_key_exclusive _ (lit "sgiUserAccount=") l (by decide) (by decide) (by decide) h
  have e6 := at_key_exclusive _ (lit "sgiUserPassword=") l (by decide) (by decide) (by decide) h
  have e7 := at_key_exclusive _ (lit "sgiShowingName=") l (by decide) (by decide) (by decide) h
  rw [at_key_false_iff] at e1 e2 e3 e4 e5 e6 e7
  rw [at_key_iff] at h
  simp only [ParseLine, sizeof_sub_one, e1, e2, e3, e4, e5, e6, e7, h, if_false, if_true]

/-- What a line does is one write, whatever the session: a line that matches
the literal `k` either makes `ParseLine` fail on every session, or makes it
return `VLC_SUCCESS` and write the field of `k` with a value that depends on
the line only. -/
theorem ParseLine_of_key (H : host_t) (l k : List Nat) (hk : k ∈ keys)
    (h : at_key k l = true) :
    ∃ f, key_field k = some f ∧
      ((∀ p_sys, ParseLine H p_sys l = none) ∨
        ∃ v d, ∀ p_sys, ParseLine H p_sys l = some (H.VLC_SUCCESS, write_field f v d p_sys)) := by
  simp only [keys, List.mem_cons, List.mem_singleton, List.not_mem_nil, or_false] at hk
  rcases hk with rfl | rfl | rfl | rfl | rfl | rfl | rfl | rfl | rfl
  · exact ⟨.uri, by decide, Or.inr ⟨_, 0, fun p => ParseLine_rtsp H p l h⟩⟩
  · refine ⟨.uri, by decide, ?_⟩
    cases hi : strrchr ((l.dropWhile is_bol_blank).drop (lit "Stream=\"").length) 34 with
    | none => exact Or.inl fun p => ParseLine_Stream_none H p l h hi
    | some i => exact Or.inr ⟨_, 0, fun p => ParseLine_Stream H p l i h hi⟩
  · exact ⟨.server, by decide, Or.inr ⟨_, 0, fun p => ParseLine_server H p l h⟩⟩
  · exact ⟨.location, by decide, Or.inr ⟨_, 0, fun p => ParseLine_location H p l h⟩⟩
  · exact ⟨.user, by decide, Or.inr ⟨_, 0, fun p => ParseLine_user H p l h⟩⟩
  · exact ⟨.password, by decide, Or.inr ⟨_, 0, fun p => ParseLine_password H p l h⟩⟩
  · exact ⟨.name, by decide, Or.inr ⟨_, 0, fun p => ParseLine_name H p l h⟩⟩
  · exact ⟨.duration, by decide, Or.inr ⟨[], _, fun p => ParseLine_duration H p l h⟩⟩
  · exact ⟨.port, by decide, Or.inr ⟨[], _, fun p => ParseLine_port H p l h⟩⟩

/-! ## The field a line writes -/

theorem find_unique {α : Type} (q : α → Bool) (xs : List α) (k : α) (hk : k ∈ xs)
    (hq : q k = true) (hu : ∀ x ∈ xs, q x = true → x = k) : xs.find? q = some k := by
  induction xs with
  | nil => simp at hk
  | cons x xs ih =>
    by_cases hx : q x = true
    · have := hu x (List.mem_cons_self _ _) hx
      subst this
      simp [List.find?, hx]
    · have hne : k ≠ x := fun e => hx (e ▸ hq)
      have hk' : k ∈ xs := by
        rcases List.mem_cons.1 hk with e | e
        · exact absurd e hne
        · exact e
      simp only [List.find?, Bool.not_eq_true] at hx ⊢
      rw [hx]
      exact ih hk' fun y hy => hu y (List.mem_cons_of_mem _ hy)

/-- A line that matches the literal `k` writes the field of `k`. -/
theorem line_field_of_key (l k : List Nat) (hk : k ∈ keys) (h : at_key k l = true) :
    line_field l = key_field k := by
  have hfind : keys.find? (fun k => at_key k l) = some k := by
    apply find_unique _ _ _ hk h
    intro x hx hxl
    by_contra hne
    have := at_key_exclusive x k l hx hk hne hxl
    rw [h] at this
    exact Bool.noConfusion this
  simp only [line_field, hfind, Option.some_bind]

theorem no_key_iff (l : List Nat) : no_key l = true ↔ ∀ k ∈ keys, at_key k l = false := by
  simp [no_key, List.all_eq_true]

/-- A line that matches no literal writes no field. -/
theorem line_field_of_no_key (l : List Nat) (h : no_key l = true) : line_field l = none := by
  have hfind : keys.find? (fun k => at_key k l) = none := by
    rw [List.find?_eq_none]
    intro x hx
    simp [(no_key_iff l).1 h x hx]
  simp only [line_field, hfind, Option.none_bind]

/-- A line matches a literal or matches none. -/
theorem key_or_no_key (l : List Nat) :
    no_key l = true ∨ ∃ k, k ∈ keys ∧ at_key k l = true := by
  cases hn : no_key l with
  | true => exact Or.inl rfl
  | false =>
    right
    by_contra hex
    have : no_key l = true := (no_key_iff l).2 fun k hk => by
      cases hk' : at_key k l with
      | false => rfl
      | true => exact absurd ⟨k, hk, hk'⟩ hex
    rw [hn] at this
    exact Bool.noConfusion this

/-- What a line does, in terms of the field it writes. -/
theorem ParseLine_cases (H : host_t) (l : List Nat) :
    (line_field l = none ∧ ∀ p_sys, ParseLine H p_sys l = some (0, p_sys))
    ∨ (∃ f, line_field l = some f ∧ ∀ p_sys, ParseLine H p_sys l = none)
    ∨ (∃ f v d, line_field l = some f ∧
        ∀ p_sys, ParseLine H p_sys l = some (H.VLC_SUCCESS, write_field f v d p_sys)) := by
  rcases key_or_no_key l with hn | ⟨k, hk, hkl⟩
  · exact Or.inl ⟨line_field_of_no_key l hn, fun p => ParseLine_no_key H p l hn⟩
  · obtain ⟨f, hf, hcase⟩ := ParseLine_of_key H l k hk hkl
    have hlf : line_field l = some f := by rw [line_field_of_key l k hk hkl, hf]
    rcases hcase with hnone | ⟨v, d, hw⟩
    · exact Or.inr (Or.inl ⟨f, hlf, hnone⟩)
    · exact Or.inr (Or.inr ⟨f, v, d, hlf, hw⟩)

theorem write_field_comm (f g : field_t) (hfg : f ≠ g) (v w : List Nat) (d e : Int)
    (p_sys : demux_sys_t) :
    write_field f v d (write_field g w e p_sys) = write_field g w e (write_field f v d p_sys) := by
  cases f <;> cases g <;> first
    | rfl
    | exact absurd rfl hfg

theorem write_field_twice (f : field_t) (v w : List Nat) (d e : Int) (p_sys : demux_sys_t) :
    write_field f v d (write_field f w e p_sys) = write_field f v d p_sys := by
  cases f <;> rfl

/-- A line fails on one session exactly when it is a `Stream="` line without
a further quote, that is, when it is not well formed. -/
theorem ParseLine_isSome (H : host_t) (p_sys : demux_sys_t) (l : List Nat) :
    (ParseLine H p_sys l).isSome = well_formed l := by
  rcases key_or_no_key l with hn | ⟨k, hk, hkl⟩
  · have hs : at_key (lit "Stream=\"") l = false := (no_key_iff l).1 hn _ (by decide)
    simp [ParseLine_no_key H p_sys l hn, well_formed, hs]
  · by_cases hks : k = lit "Stream=\""
    · subst hks
      cases hi : strrchr ((l.dropWhile is_bol_blank).drop (lit "Stream=\"").length) 34 with
      | none => simp [ParseLine_Stream_none H p_sys l hkl hi, well_formed, hkl, hi]
      | some i => simp [ParseLine_Stream H p_sys l i hkl hi, well_formed, hkl, hi]
    · have hs : at_key (lit "Stream=\"") l = false :=
        at_key_exclusive k _ l hk (by decide) hks hkl
      obtain ⟨f, _, hcase⟩ := ParseLine_of_key H l k hk hkl
      rcases hcase with hnone | ⟨v, d, hw⟩
      · exfalso
        have h1 := hnone p_sys
        simp only [keys, List.mem_cons, List.mem_singleton, List.not_mem_nil, or_false] at hk
        rcases hk with rfl | rfl | rfl | rfl | rfl | rfl | rfl | rfl | rfl
        · rw [ParseLine_rtsp H p_sys l hkl] at h1; exact Option.noConfusion h1
        · exact hks rfl
        · rw [ParseLine_server H p_sys l hkl] at h1; exact Option.noConfusion h1
        · rw [ParseLine_location H p_sys l hkl] at h1; exact Option.noConfusion h1
        · rw [ParseLine_user H p_sys l hkl] at h1; exact Option.noConfusion h1
        · rw [ParseLine_password H p_sys l hkl] at h1; exact Option.noConfusion h1
        · rw [ParseLine_name H p_sys l hkl] at h1; exact Option.noConfusion h1
        · rw [ParseLine_duration H p_sys l hkl] at h1; exact Option.noConfusion h1
        · rw [ParseLine_port H p_sys l hkl] at h1; exact Option.noConfusion h1
      · simp [hw p_sys, well_formed, hs]

/-! ## Repeated lines and the order of lines -/

/-- Two neighbouring lines that do not write the same field can be read in
either order. -/
theorem Demux_loop_swap (H : host_t) (x y : List Nat) (s : List (List Nat))
    (p_sys : demux_sys_t)
    (h : ∀ f g, line_field x = some f → line_field y = some g → f ≠ g) :
    Demux_loop H p_sys (x :: y :: s) = Demux_loop H p_sys (y :: x :: s) := by
  rcases ParseLine_cases H x with ⟨_, hx⟩ | ⟨f, _, hx⟩ | ⟨f, v, d, hfx, hx⟩ <;>
  rcases ParseLine_cases H y with ⟨_, hy⟩ | ⟨g, _, hy⟩ | ⟨g, w, e, hgy, hy⟩ <;>
  simp only [Demux_loop, hx, hy]
  rw [write_field_comm f g (h f g hfx hgy)]

/-- The read loop gives the same result on a permutation of the lines when no
two lines write the same field. -/
theorem Demux_loop_perm (H : host_t) {s t : List (List Nat)} (hp : s.Perm t) :
    (s.filterMap line_field).Nodup → ∀ p_sys, Demux_loop H p_sys s = Demux_loop H p_sys t := by
  induction hp with
  | nil => intro _ _; rfl
  | cons x _ ih =>
    intro hnd p_sys
    have hnd' := hnd.sublist (List.Sublist.filterMap line_field (List.sublist_cons_self x _))
    simp only [Demux_loop]
    cases ParseLine H p_sys x with
    | none => rfl
    | some r => exact ih hnd' r.2
  | swap x y l =>
    intro hnd p_sys
    apply Demux_loop_swap
    intro f g hf hg hfg
    subst hfg
    simp [List.filterMap_cons, hf, hg] at hnd
  | trans h1 _ ih1 ih2 =>
    intro hnd p_sys
    rw [ih1 hnd p_sys]
    exact ih2 ((h1.filterMap line_field).nodup_iff.1 hnd) p_sys

/-- The read loop completes on well-formed lines. -/
theorem Demux_loop_isSome (H : host_t) (s : List (List Nat))
    (hwf : ∀ l ∈ s, well_formed l = true) :
    ∀ p_sys, ∃ p_end, Demux_loop H p_sys s = some p_end := by
  induction s with
  | nil => exact fun p => ⟨p, rfl⟩
  | cons l s ih =>
    intro p
    have h1 := ParseLine_isSome H p l
    rw [hwf l (List.mem_cons_self _ _)] at h1
    obtain ⟨r, hr⟩ := Option.isSome_iff_exists.1 h1
    simp only [Demux_loop, hr]
    exact ih (fun x hx => hwf x (List.mem_cons_of_mem _ hx)) r.2

/-- Claim C12: for two well-formed lines that match the same literal, parsing
the first and then the second leaves the session that parsing the second alone
leaves; and for every line, parsing it twice gives what parsing it once
gives. -/
theorem C12_last_write_wins (H : host_t) (p_sys : demux_sys_t) (l1 l2 k : List Nat)
    (hk : k ∈ keys) (h1 : at_key k l1 = true) (h2 : at_key k l2 = true)
    (w1 : well_formed l1 = true) (w2 : well_formed l2 = true) :
    (∃ r1 r, ParseLine H p_sys l1 = some r1 ∧ ParseLine H p_sys l2 = some r
      ∧ ParseLine H r1.2 l2 = some r)
    ∧ ∀ l, (ParseLine H p_sys l).bind (fun r => ParseLine H r.2 l) = ParseLine H p_sys l := by
  constructor
  · obtain ⟨f, hf, c1⟩ := ParseLine_of_key H l1 k hk h1
    obtain ⟨g, hg, c2⟩ := ParseLine_of_key H l2 k hk h2
    have hfg : g = f := Option.some.inj (hg.symm.trans hf)
    subst hfg
    rcases c1 with n1 | ⟨v, d, e1⟩
    · have := ParseLine_isSome H p_sys l1
      rw [n1 p_sys, w1] at this
      exact Bool.noConfusion this
    · rcases c2 with n2 | ⟨w, e, e2⟩
      · have := ParseLine_isSome H p_sys l2
        rw [n2 p_sys, w2] at this
        exact Bool.noConfusion this
      · refine ⟨_, _, e1 p_sys, e2 p_sys, ?_⟩
        rw [e2, write_field_twice]
  · intro l
    rcases ParseLine_cases H l with ⟨_, hl⟩ | ⟨f, _, hl⟩ | ⟨f, v, d, _, hl⟩
    · simp only [hl, Option.some_bind]
    · simp only [hl, Option.none_bind]
    · simp only [hl, Option.some_bind, write_field_twice]

/-- Claim C12 at two `sgiMovieName=` lines and at a repeated `Stream="`
line. -/
theorem C12_last_write_wins_witness :
    (∃ r1 r, ParseLine H0 Activate_sys (lit "sgiMovieName=/demo/a.mpg") = some r1
      ∧ ParseLine H0 Activate_sys (lit "SGIMOVIENAME=/demo/b.mpg") = some r
      ∧ ParseLine H0 r1.2 (lit "SGIMOVIENAME=/demo/b.mpg") = some r)
    ∧ (ParseLine H0 Activate_sys (lit "Stream=\"xdma://host/a\"")).bind
        (fun r => ParseLine H0 r.2 (lit "Stream=\"xdma://host/a\""))
        = ParseLine H0 Activate_sys (lit "Stream=\"xdma://host/a\"") :=
  ⟨(C12_last_write_wins H0 Activate_sys (lit "sgiMovieName=/demo/a.mpg")
      (lit "SGIMOVIENAME=/demo/b.mpg") (lit "sgiMovieName=") (by decide) (by decide) (by decide)
      (by decide) (by decide)).1,
   (C12_last_write_wins H0 Activate_sys (lit "sgiMovieName=/demo/a.mpg")
      (lit "SGIMOVIENAME=/demo/b.mpg") (lit "sgiMovieName=") (by decide) (by decide) (by decide)
      (by decide) (by decide)).2 _⟩

/-- Claim C13: for a list of well-formed lines no two of which write the same
field, and for every permutation of it, the read loop completes on both with
the same final session, and `Demux` gives the same result on both. -/
theorem C13_order_independent (H : host_t) (pl : playlist_t) (p_sys : demux_sys_t)
    (s t : List (List Nat)) (hwf : ∀ l ∈ s, well_formed l = true)
    (hnd : (s.filterMap line_field).Nodup) (hp : s.Perm t) :
    (∃ p_end, Demux_loop H p_sys s = some p_end ∧ Demux_loop H p_sys t = some p_end)
    ∧ Demux H p_sys (some pl) s = Demux H p_sys (some pl) t := by
  have heq := Demux_loop_perm H hp hnd p_sys
  obtain ⟨p_end, he⟩ := Demux_loop_isSome H s hwf p_sys
  refine ⟨⟨p_end, he, heq ▸ he⟩, ?_⟩
  simp only [Demux, heq]

/-- Claim C13 at four lines read in two orders. -/
theorem C13_order_independent_witness :
    Demux H0 Activate_sys (some ⟨0⟩)
        [lit "sgiNameServerHost=h.example.com", lit "sgiMovieName=/demo/a.mpg",
         lit "sgiRtspPort=8554", lit "sgiShowingName=A movie"]
      = Demux H0 Activate_sys (some ⟨0⟩)
        [lit "sgiShowingName=A movie", lit "sgiRtspPort=8554",
         lit "sgiMovieName=/demo/a.mpg", lit "sgiNameServerHost=h.example.com"] :=
  (C13_order_independent H0 ⟨0⟩ Activate_sys
    [lit "sgiNameServerHost=h.example.com", lit "sgiMovieName=/demo/a.mpg",
     lit "sgiRtspPort=8554", lit "sgiShowingName=A movie"]
    [lit "sgiShowingName=A movie", lit "sgiRtspPort=8554",
     lit "sgiMovieName=/demo/a.mpg", lit "sgiNameServerHost=h.example.com"]
    (by decide) (by decide) (List.reverse_perm _).symm).2

/-! ## Leading blanks and letter case of the literal -/

theorem is_bol_blank_tolower (c : Nat) : is_bol_blank (tolower c) = is_bol_blank c := by
  unfold tolower
  split
  · next h =>
    have h1 : is_bol_blank (c + 32) = false := by
      simp only [is_bol_blank, Bool.or_eq_false_iff, decide_eq_false_iff_not]
      omega
    have h2 : is_bol_blank c = false := by
      simp only [is_bol_blank, Bool.or_eq_false_iff, decide_eq_false_iff_not]
      omega
    rw [h1, h2]
  · rfl

/-- The first loop of `ParseLine` removes a run of blanks in front of a text
that starts with a byte that is not blank. -/
theorem dropWhile_blank_run (w a : List Nat) (hw : ∀ c ∈ w, is_bol_blank c = true)
    (ha : a ≠ []) (hb : is_bol_blank (deref a) = false) :
    (w ++ a).dropWhile is_bol_blank = a := by
  induction w with
  | nil =>
    cases a with
    | nil => exact absurd rfl ha
    | cons x a =>
      simp only [deref, List.headD_cons] at hb
      simp [List.dropWhile, hb]
  | cons c w ih =>
    have hc := hw c (List.mem_cons_self _ _)
    simp only [List.cons_append, List.dropWhile, hc]
    exact ih fun x hx => hw x (List.mem_cons_of_mem _ hx)

/-- A line made of blanks, a variant of the literal `k` in upper and lower
case and a value: it matches `k`, and the value is what follows. -/
theorem variant_line (k k' w v : List Nat) (hn : NUL ∉ k) (hne : k ≠ [])
    (hb : is_bol_blank (tolower (deref k)) = false)
    (hvar : k'.map tolower = k.map tolower) (hw : ∀ c ∈ w, is_bol_blank c = true) :
    at_key k (w ++ k' ++ v) = true
    ∧ ((w ++ k' ++ v).dropWhile is_bol_blank).drop k.length = v := by
  have hlen : k'.length = k.length := by
    have := congrArg List.length hvar
    simpa using this
  have hne' : k' ++ v ≠ [] := by
    cases k' with
    | nil => cases k with
      | nil => exact absurd rfl hne
      | cons _ _ => simp at hlen
    | cons _ _ => simp
  have hb' : is_bol_blank (deref (k' ++ v)) = false := by
    cases k' with
    | nil => cases k with
      | nil => exact absurd rfl hne
      | cons _ _ => simp at hlen
    | cons c' k' =>
      cases k with
      | nil => simp at hlen
      | cons c k =>
        simp only [List.map_cons, List.cons.injEq] at hvar
        simp only [deref, List.headD_cons, List.cons_append] at hb ⊢
        rw [← is_bol_blank_tolower, hvar.1]
        exact hb
  have hdrop : (w ++ k' ++ v).dropWhile is_bol_blank = k' ++ v := by
    rw [List.append_assoc]
    exact dropWhile_blank_run w (k' ++ v) hw hne' hb'
  constructor
  · rw [at_key_iff, hdrop, strncasecmp_append k' v k k.length (by omega),
      strncasecmp_eq_zero_iff k' k k.length hn (Nat.le_refl _)]
    rw [← hlen, List.take_length, hvar, hlen, List.take_length]
  · rw [hdrop, ← hlen, List.drop_left]

/-- Claim C14: for each of the five string keys, a line made of a run of
blanks, tabs, CR and LF, the literal of the key in any mix of upper and lower
case, and a value `v` without NUL sets the field of the key to exactly `v`
(to the empty string when `v` is empty) and no other field. -/
theorem C14_string_value_verbatim (H : host_t) (p_sys : demux_sys_t) (k' w v : List Nat)
    (hw : ∀ c ∈ w, is_bol_blank c = true) (hv : NUL ∉ v) :
    (k'.map tolower = (lit "sgiNameServerHost=").map tolower →
      ParseLine H p_sys (w ++ k' ++ v)
        = some (H.VLC_SUCCESS, { p_sys with psz_server := some v }))
    ∧ (k'.map tolower = (lit "sgiMovieName=").map tolower →
      ParseLine H p_sys (w ++ k' ++ v)
        = some (H.VLC_SUCCESS, { p_sys with psz_location := some v }))
    ∧ (k'.map tolower = (lit "sgiUserAccount=").map tolower →
      ParseLine H p_sys (w ++ k' ++ v)
        = some (H.VLC_SUCCESS, { p_sys with psz_user := some v }))
    ∧ (k'.map tolower = (lit "sgiUserPassword=").map tolower →
      ParseLine H p_sys (w ++ k' ++ v)
        = some (H.VLC_SUCCESS, { p_sys with psz_password := some v }))
    ∧ (k'.map tolower = (lit "sgiShowingName=").map tolower →
      ParseLine H p_sys (w ++ k' ++ v)
        = some (H.VLC_SUCCESS, { p_sys with psz_name := some v })) := by
  refine ⟨?_, ?_, ?_, ?_, ?_⟩ <;> intro hvar
  · obtain ⟨hk, hval⟩ := variant_line _ k' w v (by decide) (by decide) (by decide) hvar hw
    rw [ParseLine_server H p_sys _ hk, hval, strdup_of_no_NUL hv]
  · obtain ⟨hk, hval⟩ := variant_line _ k' w v (by decide) (by decide) (by decide) hvar hw
    rw [ParseLine_location H p_sys _ hk, hval, strdup_of_no_NUL hv]
  · obtain ⟨hk, hval⟩ := variant_line _ k' w v (by decide) (by decide) (by decide) hvar hw
    rw [ParseLine_user H p_sys _ hk, hval, strdup_of_no_NUL hv]
  · obtain ⟨hk, hval⟩ := variant_line _ k' w v (by decide) (by decide) (by decide) hvar hw
    rw [ParseLine_password H p_sys _ hk, hval, strdup_of_no_NUL hv]
  · obtain ⟨hk, hval⟩ := variant_line _ k' w v (by decide) (by decide) (by decide) hvar hw
    rw [ParseLine_name H p_sys _ hk, hval, strdup_of_no_NUL hv]

/-- Claim C14 at a line with leading blanks, an upper-case key and a value
with inner and trailing blanks, and at a key with an empty value. -/
theorem C14_string_value_verbatim_witness :
    ParseLine H0 Activate_sys (lit " \t" ++ lit "SGIMovieNAME=" ++ lit "/Demo/My Movie.mpg  ")
        = some (0, { Activate_sys with psz_location := some (lit "/Demo/My Movie.mpg  ") })
    ∧ ParseLine H0 Activate_sys (lit "" ++ lit "sgiUserPassword=" ++ lit "")
        = some (0, { Activate_sys with psz_password := some [] }) :=
  ⟨(C14_string_value_verbatim H0 Activate_sys (lit "SGIMovieNAME=") (lit " \t")
      (lit "/Demo/My Movie.mpg  ") (by decide) (by decide)).2.1 (by decide),
   (C14_string_value_verbatim H0 Activate_sys (lit "sgiUserPassword=") (lit "")
      (lit "") (by decide) (by decide)).2.2.2.1 (by decide)⟩

/-! ## Lines that write nothing, lines that write one field -/

/-- A line made of blanks only matches no literal. -/
theorem no_key_of_blanks (w : List Nat) (hw : ∀ c ∈ w, is_bol_blank c = true) :
    no_key w = true := by
  have hdrop : w.dropWhile is_bol_blank = [] := by
    rw [List.dropWhile_eq_nil_iff]
    exact hw
  have key : ∀ k ∈ keys, ¬ strncasecmp [] k k.length = 0 := by decide
  rw [no_key_iff]
  intro k hk
  rw [at_key_false_iff, hdrop]
  exact key k hk

/-- Claim C17: a line that matches none of the nine literals leaves the
session as it is; the empty line, lines of blanks, and the lines
`sgiQTFileBegin`, `sgiQTFileEnd`, `rtsptext` are such lines; a well-formed
line that matches a literal makes `ParseLine` write the field of that literal
and nothing else; and no line matches two of the literals. -/
theorem C17_frame (H : host_t) (p_sys : demux_sys_t) (l : List Nat) :
    (no_key l = true → ParseLine H p_sys l = some (0, p_sys))
    ∧ ((∀ c ∈ l, is_bol_blank c = true) → no_key l = true)
    ∧ (no_key (lit "sgiQTFileBegin") = true ∧ no_key (lit "sgiQTFileEnd") = true
        ∧ no_key (lit "rtsptext") = true)
    ∧ (∀ k ∈ keys, at_key k l = true → well_formed l = true →
        ∃ f v d, key_field k = some f
          ∧ ParseLine H p_sys l = some (H.VLC_SUCCESS, write_field f v d p_sys))
    ∧ (∀ k1 ∈ keys, ∀ k2 ∈ keys, at_key k1 l = true → at_key k2 l = true → k1 = k2) := by
  refine ⟨ParseLine_no_key H p_sys l, no_key_of_blanks l, by decide, ?_, ?_⟩
  · intro k hk hkl hwf
    obtain ⟨f, hf, hcase⟩ := ParseLine_of_key H l k hk hkl
    rcases hcase with hnone | ⟨v, d, hw⟩
    · have := ParseLine_isSome H p_sys l
      rw [hnone p_sys, hwf] at this
      exact Bool.noConfusion this
    · exact ⟨f, v, d, hf, hw p_sys⟩
  · intro k1 h1 k2 h2 m1 m2
    by_contra hne
    have := at_key_exclusive k1 k2 l h1 h2 hne m1
    rw [m2] at this
    exact Bool.noConfusion this

/-- Claim C17 at an empty line, a line of blanks and a duration line. -/
theorem C17_frame_witness :
    ParseLine H0 Activate_sys (lit "") = some (0, Activate_sys)
    ∧ ParseLine H0 Activate_sys (lit " \t \r") = some (0, Activate_sys)
    ∧ ∃ f v d, key_field (lit "sgiDuration=") = some f
        ∧ ParseLine H0 Activate_sys (lit "sgiDuration=378345000")
          = some (0, write_field f v d Activate_sys) :=
  ⟨(C17_frame H0 Activate_sys (lit "")).1 (by decide),
   (C17_frame H0 Activate_sys (lit " \t \r")).1
     ((C17_frame H0 Activate_sys (lit " \t \r")).2.1 (by decide)),
   (C17_frame H0 Activate_sys (lit "sgiDuration=378345000")).2.2.2.1 (lit "sgiDuration=")
     (by decide) (by decide) (by decide)⟩

/-! ## Text that is not a number -/

theorem strtol_digits_no_digit (t : List Nat) (ht : ¬ (48 ≤ deref t ∧ deref t ≤ 57)) :
    strtol_digits 10 t 0 = 0 := by
  cases t with
  | nil => rfl
  | cons c t =>
    simp only [deref, List.headD_cons] at ht
    simp only [strtol_digits, digit_val, ht, if_false]
    by_cases h1 : 97 ≤ c ∧ c ≤ 122
    · have h10 : ¬ (c - 87 < 10) := by omega
      simp only [h1, and_self, if_true, h10, if_false]
    · by_cases h2 : 65 ≤ c ∧ c ≤ 90
      · have h10 : ¬ (c - 55 < 10) := by omega
        simp only [h1, h2, and_self, if_true, if_false, h10]
      · simp only [h1, h2, if_false]

theorem strtol_magnitude_no_digit (t : List Nat) (ht : ¬ (48 ≤ deref t ∧ deref t ≤ 57)) :
    strtol_magnitude t = 0 := by
  have h48 : ¬ deref t = 48 := by omega
  simp only [strtol_magnitude, h48, if_false]
  exact strtol_digits_no_digit t ht

/-- The call `strtol` on a text that does not start with a number returns
`0`. -/
theorem strtol_no_number (LONG_MAX : Int) (hL : 0 ≤ LONG_MAX) (r : List Nat)
    (hr : no_number r) : strtol LONG_MAX r = 0 := by
  simp only [no_number] at hr
  simp only [strtol]
  by_cases h45 : deref (r.dropWhile isspace) = 45
  · simp only [h45, true_or, if_true] at hr ⊢
    rw [strtol_magnitude_no_digit _ hr]
    simp only [Int.Nat.cast_ofNat_Int, Int.neg_zero]
    omega
  · by_cases h43 : deref (r.dropWhile isspace) = 43
    · simp only [h43, or_true, if_true] at hr
      simp only [h45, h43, if_false, if_true]
      rw [strtol_magnitude_no_digit _ hr]
      simp only [Int.Nat.cast_ofNat_Int]
      omega
    · simp only [h45, h43, or_self, if_false] at hr ⊢
      rw [strtol_magnitude_no_digit _ hr]
      simp only [Int.Nat.cast_ofNat_Int]
      omega

theorem int_of_long_zero : int_of_long 0 = 0 := by decide

/-- Claim C16: when the text `r` does not start with a number, `ParseLine` on
`sgiDuration=` followed by `r` returns `VLC_SUCCESS` with `i_duration` set to
`0`, and on `sgiRtspPort=` followed by `r` returns `VLC_SUCCESS` with `i_port`
set to `0`; no other field changes. The host's `LONG_MAX` is not negative. -/
theorem C16_no_number_gives_zero (H : host_t) (hL : 0 ≤ H.LONG_MAX) (p_sys : demux_sys_t)
    (r : List Nat) (hr : no_number r) :
    ParseLine H p_sys (lit "sgiDuration=" ++ r)
        = some (H.VLC_SUCCESS, { p_sys with i_duration := 0 })
    ∧ ParseLine H p_sys (lit "sgiRtspPort=" ++ r)
        = some (H.VLC_SUCCESS, { p_sys with i_port := 0 }) := by
  constructor
  · rw [ParseLine_duration H p_sys _ (at_key_append _ _ (by decide) (by decide)),
      value_of_append (lit "sgiDuration=") r (by decide) (by decide),
      strtol_no_number H.LONG_MAX hL r hr]
  · rw [ParseLine_port H p_sys _ (at_key_append _ _ (by decide) (by decide)),
      value_of_append (lit "sgiRtspPort=") r (by decide) (by decide),
      strtol_no_number H.LONG_MAX hL r hr, int_of_long_zero]

/-- Claim C16 at the texts `abc`, on a session with a duration, and the empty
text, on a session with a port. -/
theorem C16_no_number_gives_zero_witness :
    ParseLine H0 { Activate_sys with i_duration := 7 } (lit "sgiDuration=abc")
        = some (0, Activate_sys)
    ∧ ParseLine H0 { Activate_sys with i_port := 8554 } (lit "sgiRtspPort=")
        = some (0, Activate_sys) :=
  ⟨(C16_no_number_gives_zero H0 (by decide) { Activate_sys with i_duration := 7 } (lit "abc")
      (by unfold no_number; decide)).1,
   (C16_no_number_gives_zero H0 (by decide) { Activate_sys with i_port := 8554 } (lit "")
      (by unfold no_number; decide)).2⟩

/-! ## A `Stream="` line without closing quote -/

/-- Claim C15, at an input where the code departs from it: the line
`Stream="xdma://host.name.tld/demo/a.mpg`, without closing quote, is not well
formed; `strrchr` returns NULL on it, the write through NULL makes
`ParseLine` fail on every session, and the read loop does not reach the lines
that follow. -/
theorem C15_missing_quote_fails (H : host_t) (p_sys : demux_sys_t) :
    at_key (lit "Stream=\"") (lit "Stream=\"xdma://host.name.tld/demo/a.mpg") = true
    ∧ strrchr (lit "xdma://host.name.tld/demo/a.mpg") 34 = none
    ∧ ParseLine H p_sys (lit "Stream=\"xdma://host.name.tld/demo/a.mpg") = none
    ∧ Demux_loop H p_sys [lit "Stream=\"xdma://host.name.tld/demo/a.mpg",
        lit "sgiMovieName=/demo/a.mpg"] = none := by
  have h := ParseLine_Stream_none H p_sys (lit "Stream=\"xdma://host.name.tld/demo/a.mpg")
    (by decide) (by decide)
  refine ⟨by decide, by decide, h, ?_⟩
  simp only [Demux_loop, h]

/-! ## The closing quote of a `Stream="` line -/

theorem strrchr_none (w : List Nat) (c : Nat) (hc : c ∉ w) : strrchr w c = none := by
  induction w with
  | nil => rfl
  | cons x w ih =>
    have hx : ¬ x = c := fun e => hc (by simp [e])
    have hw : c ∉ w := fun e => hc (by simp [e])
    simp only [strrchr, ih hw, hx, if_false]
    split <;> rfl

/-- The quote that `strrchr` finds is the last one. -/
theorem strrchr_last (v w : List Nat) (hn : NUL ∉ v) (hq : 34 ∉ w) :
    strrchr (v ++ 34 :: w) 34 = some v.length := by
  induction v with
  | nil => simp [strrchr, NUL, strrchr_none w 34 hq]
  | cons x v ih =>
    have hx : x ≠ NUL := fun e => hn (by simp [e])
    have hn' : NUL ∉ v := fun e => hn (by simp [e])
    simp [strrchr, hx, ih hn']

theorem set_last (v w : List Nat) (c : Nat) :
    (v ++ 34 :: w).set v.length c = v ++ c :: w := by
  induction v with
  | nil => rfl
  | cons x v ih => simp [List.set, ih]

/-- The branch of `Stream="` on a line with a quote: what is stored is the
text `v` between the opening quote and the last quote, rewritten as the spec
says. -/
theorem ParseLine_Stream_last_quote (H : host_t) (p_sys : demux_sys_t) (v w : List Nat)
    (hn : NUL ∉ v) (hq : 34 ∉ w) :
    ParseLine H p_sys (lit "Stream=\"" ++ (v ++ 34 :: w))
      = some (H.VLC_SUCCESS, { p_sys with psz_uri := some (rewrite_spec v) }) := by
  have hval := value_of_append (lit "Stream=\"") (v ++ 34 :: w) (by decide) (by decide)
  have hkey : at_key (lit "Stream=\"") (lit "Stream=\"" ++ (v ++ 34 :: w)) = true :=
    at_key_append _ _ (by decide) (by decide)
  have hr : strrchr (((lit "Stream=\"" ++ (v ++ 34 :: w)).dropWhile is_bol_blank).drop
      (lit "Stream=\"").length) 34 = some v.length := by
    rw [hval]; exact strrchr_last v w hn hq
  rw [ParseLine_Stream H p_sys _ v.length hkey hr, hval, set_last,
    strncasecmp_NUL v w _ _ hn]
  have hiff := strncasecmp_eq_zero_iff v (lit "xdma://") (lit "xdma://").length (by decide)
    (Nat.le_refl _)
  have e7 : ((lit "xdma://").take 7).map tolower = lit "xdma://" := by decide
  have e7' : (lit "xdma://").length = 7 := by decide
  rw [e7', e7] at hiff
  rw [e7']
  unfold rewrite_spec
  by_cases hx : (v.take 7).map tolower = lit "xdma://"
  · rw [if_pos hx, if_pos (hiff.2 hx)]
    match v, hn, hx with
    | c0 :: c1 :: c2 :: c3 :: rest, hn, _ =>
      have hrest : NUL ∉ rest := fun e => hn (by simp [e])
      have hp : poke_rtsp (c0 :: c1 :: c2 :: c3 :: rest ++ NUL :: w)
          = lit "rtsp" ++ (rest ++ NUL :: w) := by
        simp [poke_rtsp, List.set]; rfl
      rw [hp]
      have hnul : NUL ∉ lit "rtsp" ++ rest := by
        have : NUL ∉ lit "rtsp" := by decide
        simp only [List.mem_append, not_or]; exact ⟨this, hrest⟩
      rw [← List.append_assoc, strdup_NUL _ w hnul]
      rfl
    | [], _, hx => exact absurd hx (by decide)
    | [_], _, hx => exact absurd (congrArg List.length hx) (by simp [e7'])
    | [_, _], _, hx => exact absurd (congrArg List.length hx) (by simp [e7'])
    | [_, _, _], _, hx => exact absurd (congrArg List.length hx) (by simp [e7'])
  · rw [if_neg hx, if_neg (fun e => hx (hiff.1 e)), strdup_NUL v w hn]

/-- Claim C19, as amended: on the line `Stream="` followed by `v`, a double
quote and a text `w` without double quote, with `v` free of NUL, the value
stored (before the rewrite of `xdma`) is `v`, the text up to the last double
quote, whatever quotes `v` holds; `w` is no part of it. -/
theorem C19_value_to_last_quote (H : host_t) (p_sys : demux_sys_t) (v w : List Nat)
    (hn : NUL ∉ v) (hq : 34 ∉ w) :
    ParseLine H p_sys (lit "Stream=\"" ++ v ++ lit "\"" ++ w)
      = some (H.VLC_SUCCESS, { p_sys with psz_uri := some (rewrite_spec v) }) := by
  have hline : lit "Stream=\"" ++ v ++ lit "\"" ++ w = lit "Stream=\"" ++ (v ++ 34 :: w) := by
    rw [List.append_assoc, List.append_assoc]; rfl
  rw [hline]
  exact ParseLine_Stream_last_quote H p_sys v w hn hq

/-- Claim C19 as amended, at the line of the claim and at a line with text
after the closing quote. -/
theorem C19_value_to_last_quote_witness :
    ParseLine H0 Activate_sys (lit "Stream=\"" ++ lit "a\"b" ++ lit "\"" ++ lit "")
        = some (0, { Activate_sys with psz_uri := some (lit "a\"b") })
    ∧ ParseLine H0 Activate_sys (lit "Stream=\"" ++ lit "xdma://h/a" ++ lit "\"" ++ lit " tail")
        = some (0, { Activate_sys with psz_uri := some (lit "rtsp://h/a") }) :=
  ⟨C19_value_to_last_quote H0 Activate_sys (lit "a\"b") (lit "") (by decide) (by decide),
   C19_value_to_last_quote H0 Activate_sys (lit "xdma://h/a") (lit " tail") (by decide)
     (by decide)⟩

/-- Claim C19 as stated fails at its own example: on the line `Stream="a"b"`
the value stored is `a"b`, not `a`. -/
theorem C19_first_quote_counterexample :
    ParseLine H0 Activate_sys (lit "Stream=\"a\"b\"")
        = some (0, { Activate_sys with psz_uri := some (lit "a\"b") })
    ∧ ParseLine H0 Activate_sys (lit "Stream=\"a\"b\"")
        ≠ some (0, { Activate_sys with psz_uri := some (lit "a") }) := by
  decide

/-! ## Lines that carry a URI -/

/-- A difference within the shorter of `a` and `k` keeps every text that
starts with `a` from matching `k`. -/
theorem strncasecmp_prefix_ne (a v k : List Nat)
    (h : strncasecmp a k (min a.length k.length) ≠ 0) :
    strncasecmp (a ++ v) k k.length ≠ 0 := by
  rcases Nat.le_total a.length k.length with hle | hle
  · rw [Nat.min_eq_left hle] at h
    exact strncasecmp_append_ne a v k k.length hle h
  · rw [Nat.min_eq_right hle] at h
    rw [strncasecmp_append a v k k.length hle]
    exact h

/-- A line that starts, after blanks, with `rtsp/live://` matches none of the
nine literals. -/
theorem no_key_rtsp_live (w v : List Nat) (hw : ∀ c ∈ w, is_bol_blank c = true) :
    no_key (w ++ lit "rtsp/live://" ++ v) = true := by
  have hdrop : (w ++ lit "rtsp/live://" ++ v).dropWhile is_bol_blank
      = lit "rtsp/live://" ++ v := by
    rw [List.append_assoc]
    refine dropWhile_blank_run w (lit "rtsp/live://" ++ v) hw ?_ ?_
    · intro e
      have := congrArg List.length e
      simp [lit] at this
    · rfl
  have key : ∀ k ∈ keys, strncasecmp (lit "rtsp/live://") k
      (min (lit "rtsp/live://").length k.length) ≠ 0 := by decide
  rw [no_key_iff]
  intro k hk
  rw [at_key_false_iff, hdrop]
  exact strncasecmp_prefix_ne _ v k (key k hk)

/-- Claim C18, as amended: a line that, after leading blanks, starts with
`rtsp://` followed by a text `v` without NUL sets `psz_uri` to `rtsp://`
followed by `v`, the line from its first byte that is not blank; a line that
starts with `rtsp/live://` is ignored and leaves the session as it is. -/
theorem C18_rtsp_line_stored (H : host_t) (p_sys : demux_sys_t) (w v : List Nat)
    (hw : ∀ c ∈ w, is_bol_blank c = true) (hv : NUL ∉ v) :
    ParseLine H p_sys (w ++ lit "rtsp://" ++ v)
        = some (H.VLC_SUCCESS, { p_sys with psz_uri := some (lit "rtsp://" ++ v) })
    ∧ ParseLine H p_sys (w ++ lit "rtsp/live://" ++ v) = some (0, p_sys) := by
  constructor
  · have hk := (variant_line (lit "rtsp://") (lit "rtsp://") w v (by decide) (by decide)
      (by decide) rfl hw).1
    have hdrop : (w ++ lit "rtsp://" ++ v).dropWhile is_bol_blank = lit "rtsp://" ++ v := by
      rw [List.append_assoc]
      refine dropWhile_blank_run w (lit "rtsp://" ++ v) hw ?_ ?_
      · intro e
        have := congrArg List.length e
        simp [lit] at this
      · rfl
    have hnul : NUL ∉ lit "rtsp://" ++ v := by
      have : NUL ∉ lit "rtsp://" := by decide
      simp only [List.mem_append, not_or]
      exact ⟨this, hv⟩
    rw [ParseLine_rtsp H p_sys _ hk, hdrop, strdup_of_no_NUL hnul]
  · exact ParseLine_no_key H p_sys _ (no_key_rtsp_live w v hw)

/-- Claim C18 as amended, at an `rtsp://` line with leading blanks and at an
`rtsp/live://` line. -/
theorem C18_rtsp_line_stored_witness :
    ParseLine H0 Activate_sys (lit "  " ++ lit "rtsp://" ++ lit "host.name.tld/demo/a.mpg")
        = some (0, { Activate_sys with
            psz_uri := some (lit "rtsp://host.name.tld/demo/a.mpg") })
    ∧ ParseLine H0 Activate_sys (lit "" ++ lit "rtsp/live://" ++ lit "host.name.tld:554/a.mpg")
        = some (0, Activate_sys) :=
  ⟨(C18_rtsp_line_stored H0 Activate_sys (lit "  ") (lit "host.name.tld/demo/a.mpg")
      (by decide) (by decide)).1,
   (C18_rtsp_line_stored H0 Activate_sys (lit "") (lit "host.name.tld:554/a.mpg")
      (by decide) (by decide)).2⟩

/-- Claim C18 as stated fails at the line
`rtsp/live://host.name.tld:554/demo/a.mpg`: `ParseLine` returns `0` and leaves
`psz_uri` unset, and `Demux` on a file with that line alone delivers no
URI. -/
theorem C18_rtsp_live_counterexample :
    ParseLine H0 Activate_sys (lit "rtsp/live://host.name.tld:554/demo/a.mpg")
        = some (0, Activate_sys)
    ∧ Activate_sys.psz_uri = none
    ∧ delivered (Demux H0 Activate_sys (some ⟨0⟩)
        [lit "rtsp/live://host.name.tld:554/demo/a.mpg"]) = some [none] := by
  decide

/-! ## Overwriting the URI -/

theorem write_field_psz_uri (f : field_t) (hf : f ≠ .uri) (v : List Nat) (d : Int)
    (p_sys : demux_sys_t) : (write_field f v d p_sys).psz_uri = p_sys.psz_uri := by
  cases f <;> first
    | rfl
    | exact absurd rfl hf

theorem key_field_uri : ∀ k ∈ keys, key_field k = some .uri →
    k = lit "rtsp://" ∨ k = lit "Stream=\"" := by
  decide

/-- Claim C11, as amended: in a session whose `psz_uri` is set, a line that
matches neither `rtsp://` nor `Stream="` leaves `psz_uri` as it was; a line
that matches `rtsp://` replaces it by that line; a `Stream="` line with a
closing quote replaces it by its value; hence after any line followed by an
`rtsp://` line the URI is the one of the `rtsp://` line, the last of the
two. -/
theorem C11_uri_overwritten (H : host_t) (p_sys : demux_sys_t) (u l : List Nat)
    (r : Int × demux_sys_t) (hu : p_sys.psz_uri = some u)
    (hr : ParseLine H p_sys l = some r) :
    (at_key (lit "rtsp://") l = false → at_key (lit "Stream=\"") l = false →
      r.2.psz_uri = some u)
    ∧ (at_key (lit "rtsp://") l = true →
      r.2.psz_uri = some (strdup (l.dropWhile is_bol_blank)))
    ∧ (∀ v w, l = lit "Stream=\"" ++ v ++ lit "\"" ++ w → NUL ∉ v → 34 ∉ w →
      r.2.psz_uri = some (rewrite_spec v))
    ∧ (∀ l2, at_key (lit "rtsp://") l2 = true →
      (Demux_loop H p_sys [l, l2]).map demux_sys_t.psz_uri
        = some (some (strdup (l2.dropWhile is_bol_blank)))) := by
  refine ⟨?_, ?_, ?_, ?_⟩
  · intro h1 h2
    rcases key_or_no_key l with hn | ⟨k, hk, hkl⟩
    · rw [ParseLine_no_key H p_sys l hn] at hr
      cases hr
      exact hu
    · obtain ⟨f, hf, hcase⟩ := ParseLine_of_key H l k hk hkl
      have hfu : f ≠ .uri := by
        intro e
        rcases key_field_uri k hk (e ▸ hf) with rfl | rfl
        · rw [hkl] at h1; exact Bool.noConfusion h1
        · rw [hkl] at h2; exact Bool.noConfusion h2
      rcases hcase with hnone | ⟨v, d, hw⟩
      · rw [hnone p_sys] at hr; exact Option.noConfusion hr
      · rw [hw p_sys] at hr
        cases hr
        rw [write_field_psz_uri f hfu]
        exact hu
  · intro h1
    rw [ParseLine_rtsp H p_sys l h1] at hr
    cases hr
    rfl
  · intro v w hl hn hq
    have hline : lit "Stream=\"" ++ v ++ lit "\"" ++ w = lit "Stream=\"" ++ (v ++ 34 :: w) := by
      rw [List.append_assoc, List.append_assoc]; rfl
    rw [hl, hline, ParseLine_Stream_last_quote H p_sys v w hn hq] at hr
    cases hr
    rfl
  · intro l2 h2
    simp only [Demux_loop, hr, ParseLine_rtsp H r.2 l2 h2, Option.map_some']

/-- Claim C11 as amended, at a session holding the URI of a `Stream="` line:
a server line keeps it, an `rtsp://` line replaces it. -/
theorem C11_uri_overwritten_witness :
    (ParseLine H0 { Activate_sys with psz_uri := some (lit "rtsp://host.name.tld/demo/a.mpg") }
        (lit "sgiNameServerHost=host.name.tld")).map (fun r => r.2.psz_uri)
      = some (some (lit "rtsp://host.name.tld/demo/a.mpg"))
    ∧ (ParseLine H0 { Activate_sys with psz_uri := some (lit "rtsp://host.name.tld/demo/a.mpg") }
        (lit "rtsp://other.host/b.mpg")).map (fun r => r.2.psz_uri)
      = some (some (lit "rtsp://other.host/b.mpg")) :=
  ⟨congrArg some ((C11_uri_overwritten H0
      { Activate_sys with psz_uri := some (lit "rtsp://host.name.tld/demo/a.mpg") }
      (lit "rtsp://host.name.tld/demo/a.mpg") (lit "sgiNameServerHost=host.name.tld")
      (0, { Activate_sys with psz_uri := some (lit "rtsp://host.name.tld/demo/a.mpg"),
                              psz_server := some (lit "host.name.tld") })
      rfl (by decide)).1 (by decide) (by decide)),
   congrArg some ((C11_uri_overwritten H0
      { Activate_sys with psz_uri := some (lit "rtsp://host.name.tld/demo/a.mpg") }
      (lit "rtsp://host.name.tld/demo/a.mpg") (lit "rtsp://other.host/b.mpg")
      (0, { Activate_sys with psz_uri := some (lit "rtsp://other.host/b.mpg") })
      rfl (by decide)).2.1 (by decide))⟩

/-- Claim C11 as stated fails on a `Stream="` line followed by an `rtsp://`
line with another value: after the first line `psz_uri` is
`rtsp://host.name.tld/demo/a.mpg`, after the second it is
`rtsp://other.host/b.mpg`, the value of the last of the two. -/
theorem C11_first_wins_counterexample :
    (Demux_loop H0 Activate_sys
        [lit "Stream=\"xdma://host.name.tld/demo/a.mpg\""]).map demux_sys_t.psz_uri
      = some (some (lit "rtsp://host.name.tld/demo/a.mpg"))
    ∧ (Demux_loop H0 Activate_sys
        [lit "Stream=\"xdma://host.name.tld/demo/a.mpg\"",
         lit "rtsp://other.host/b.mpg"]).map demux_sys_t.psz_uri
      = some (some (lit "rtsp://other.host/b.mpg")) := by
  decide

/-! ## The size of `temp` -/

/-- Claim C20, at an input where the code departs from it: with the largest
32-bit port, `2147483647`, the text that `sprintf` writes has ten digits of
port; with its NUL it takes 48 bytes where `malloc` gave 47, so the synthesis
step, and `Demux` on a file that leads to it, do not complete. -/
theorem C20_temp_one_byte_short :
    (fmt_i 2147483647).length = 10
    ∧ (lit "rtsp/live://" ++ strdup (lit "h.example.com") ++ lit ":" ++ fmt_i 2147483647
        ++ strdup (lit "/demo/a.mpg")).length + 1 = 48
    ∧ sizeof (lit "rtsp/live://" ++ lit ":" ++ lit "123456789")
        + strlen (lit "h.example.com") + strlen (lit "/demo/a.mpg") = 47
    ∧ Demux_synth { Activate_sys with psz_server := some (lit "h.example.com"),
                                      psz_location := some (lit "/demo/a.mpg"),
                                      i_port := 2147483647 } = none
    ∧ Demux H0 Activate_sys (some ⟨0⟩)
        [lit "sgiNameServerHost=h.example.com", lit "sgiMovieName=/demo/a.mpg",
         lit "sgiRtspPort=2147483647"] = none := by
  decide

end Sgimb
